import Mathlib

/-!
Shallow embedding of the FragNation Genesis 2025 registration bot
(`fragnation_bot.py`).

The persistent JSON document `data.json` is modelled as `Store`: three
ordered collections mirroring the top-level JSON objects (Python dicts
preserve insertion order, so each collection is an association list).
`solos` is keyed by the registrant's user id (Python uses `str(user.id)`;
`str` is injective on ints, so we key by the id directly).  `teams` is
keyed by the join-code string.  `payments` is keyed by `PayKey`, a
structured rendering of the f-string keys `solo-{uid}`,
`team-{code}-created` and `team-{code}-member-{uid}`; since every code
stored in `teams` is produced by `make_join_code` (six characters from
A-Z0-9, never a dash) the three f-string shapes are pairwise injective,
so the structured key is a faithful image of the string key.

Discord I/O is modelled by explicit inputs (replies carrying an arrival
delay in seconds, fresh `(channel_id, message_id)` pairs for posted
embeds) and explicit outputs (an outcome value for each message the flow
would send, plus a list of notice events: one `postNotice` per
`post_payment_embed` call and one `editNotice` per `edit_payment_embed`
call).  Every `save_data` call in the source appends one snapshot to the
returned save list; operations compose sequentially (one operation runs
to completion before the next starts), matching the claims' "sequence of
operations" reading.
-/

namespace FragNation

/-- One reply from the remote user: raw content and the delay in seconds
before it arrives at the waiting `bot.wait_for`. -/
abbrev Reply := String × Nat

/-! ### Python string methods

`str.strip`, `str.lower` and `str.upper` are modelled directly on the
character list so that they compute inside the kernel (Lean's own
`String.trim`/`toLower` are defined by well-founded recursion and do
not).  Lower/upper handle the ASCII range, which is all the comparisons
in the source need (the keywords compared against are `cancel`, `solo`,
`team` and the A-Z0-9 join codes). -/

/-- ASCII case-folding step of Python `str.lower`. -/
def pyLowerChar (c : Char) : Char :=
  if 'A' ≤ c ∧ c ≤ 'Z' then Char.ofNat (c.toNat + 32) else c

/-- ASCII case-raising step of Python `str.upper`. -/
def pyUpperChar (c : Char) : Char :=
  if 'a' ≤ c ∧ c ≤ 'z' then Char.ofNat (c.toNat - 32) else c

/-- Python `str.strip()`: drop leading and trailing whitespace. -/
def pyStrip (s : String) : String :=
  ⟨((s.data.dropWhile Char.isWhitespace).reverse.dropWhile Char.isWhitespace).reverse⟩

/-- Python `str.lower()`. -/
def pyLower (s : String) : String := ⟨s.data.map pyLowerChar⟩

/-- Python `str.upper()`. -/
def pyUpper (s : String) : String := ⟨s.data.map pyUpperChar⟩

/-- First-match lookup in an association list (Python `d[k]` / `k in d`). -/
def alookup [DecidableEq κ] (k : κ) : List (κ × α) → Option α
  | [] => none
  | (k', v) :: rest => if k' = k then some v else alookup k rest

/-- Python `d[k] = v`: replace the value at an existing key in place
(keeping its position), otherwise append the new binding at the end. -/
def aset [DecidableEq κ] (k : κ) (v : α) : List (κ × α) → List (κ × α)
  | [] => [(k, v)]
  | (k', v') :: rest => if k' = k then (k, v) :: rest else (k', v') :: aset k v rest

/-- `data["solos"][uid]` record (`handle_solo_registration`). -/
structure SoloReg where
  discord_id : Nat
  real_name : String
  ign : String
  current_rank : String
  peak_rank : String
  paid : Bool
  payment_proof : String
  payment_txn : Option String
  payment_msg : Option (Nat × Nat)
  deriving DecidableEq

/-- One entry of `team["members"]`. -/
structure TeamMember where
  discord_id : Nat
  ign : Option String
  paid : Bool
  payment_proof : Option String
  payment_txn : Option String
  payment_msg : Option (Nat × Nat)
  deriving DecidableEq

/-- `data["teams"][code]` record (`handle_team_registration`). -/
structure Team where
  team_name : String
  captain_id : Nat
  members : List TeamMember
  confirmed : Bool
  admin_msg : Option (Nat × Nat)
  deriving DecidableEq

/-- Structured form of the payment-index keys `solo-{uid}`,
`team-{code}-created`, `team-{code}-member-{uid}`. -/
inductive PayKey where
  | solo (uid : Nat)
  | teamCreated (code : String)
  | teamMember (code : String) (uid : Nat)
  deriving DecidableEq

/-- `data["payments"][key]` record. -/
structure PayEntry where
  ptype : String
  team_code : Option String
  user_id : Option Nat
  channel_id : Nat
  message_id : Nat
  status : String
  deriving DecidableEq

/-- The whole `data.json` document. -/
structure Store where
  solos : List (Nat × SoloReg)
  teams : List (String × Team)
  payments : List (PayKey × PayEntry)
  deriving DecidableEq

/-- The empty document created on first startup. -/
def initialStore : Store := { solos := [], teams := [], payments := [] }

/-- Notice traffic on the payments surface: `postNotice` for each
`post_payment_embed` call, `editNotice` for each `edit_payment_embed`
call (identified by the stored channel/message reference). -/
inductive VEvent where
  | postNotice (channel_id message_id : Nat)
  | editNotice (channel_id message_id : Nat)
  deriving DecidableEq

/-! ## Timeouts and the cancel keyword -/

/-- `timeout=300` at the `!register` kind-selection `wait_for`. -/
def REGISTER_KIND_TIMEOUT : Nat := 300

/-- `timeout=600` at each of the five solo questions. -/
def SOLO_QUESTION_TIMEOUT : Nat := 600

/-- `timeout=300` at the team-name `wait_for` in `handle_team_registration`. -/
def TEAM_NAME_TIMEOUT : Nat := 300

/-- `timeout=300` at the IGN `wait_for` in `jointeam_cmd`. -/
def JOIN_IGN_TIMEOUT : Nat := 300

/-- `timeout=600` at the payment-proof `wait_for` in `jointeam_cmd`. -/
def JOIN_PAYMENT_TIMEOUT : Nat := 600

/-- The universal cancel keyword, compared against `text.lower()`. -/
def CANCEL : String := "cancel"

/-- `bot.wait_for("message", check=..., timeout=to)`: the reply is
delivered if it arrives strictly before the timeout, else
`asyncio.TimeoutError` (modelled as `none`). -/
def awaitReply (tmo : Nat) : Option Reply → Option String
  | some (txt, d) => if d < tmo then some txt else none
  | none => none

/-! ## `!register` kind selection -/

inductive RegisterChoice where
  | soloFlow
  | teamFlow
  | unrecognized
  | timedOut
  deriving DecidableEq

/-- The kind-selection step of `register_cmd`: wait 300 s, then
`choice = reply.content.strip().lower()` dispatches to the solo flow,
the team flow, or an "Unrecognized option" message. -/
def register_choice (reply : Option Reply) : RegisterChoice :=
  match awaitReply REGISTER_KIND_TIMEOUT reply with
  | none => .timedOut
  | some txt =>
    let choice := pyLower (pyStrip txt)
    if choice = "solo" then .soloFlow
    else if choice = "team" then .teamFlow
    else .unrecognized

/-! ## The question loop of the solo flow -/

inductive Collect where
  | timedOut
  | cancelled
  | answered (answers : List String)
  deriving DecidableEq

/-- The `for q_text, key in questions` loop: ask, await with the given
per-step timeout, `strip()` the reply, abort on the cancel keyword,
otherwise record the answer and continue. -/
def collectQuestions : List Nat → List (Option Reply) → Collect
  | [], _ => .answered []
  | _ :: _, [] => .timedOut
  | tmo :: tos, r :: rs =>
    match awaitReply tmo r with
    | none => .timedOut
    | some txt =>
      let text := pyStrip txt
      if pyLower text = CANCEL then .cancelled
      else
        match collectQuestions tos rs with
        | .answered as => .answered (text :: as)
        | .cancelled => .cancelled
        | .timedOut => .timedOut

/-! ## Solo registration flow -/

inductive SoloOutcome where
  | timedOut
  | cancelled
  | savedNoGuild
  | submitted
  deriving DecidableEq

/-- The `data["solos"][str(user.id)] = {...}` record built from the five
answers. -/
def soloRecord (uid : Nat) (real_name ign current_rank peak_rank payment_proof : String) :
    SoloReg :=
  { discord_id := uid, real_name := real_name, ign := ign
    current_rank := current_rank, peak_rank := peak_rank
    paid := false, payment_proof := payment_proof
    payment_txn := none, payment_msg := none }

/-- The `data["payments"]["solo-{uid}"]` entry. -/
def soloPayEntry (uid : Nat) (cm : Nat × Nat) : PayEntry :=
  { ptype := "solo", team_code := none, user_id := some uid
    channel_id := cm.1, message_id := cm.2, status := "pending" }

/-- The single save of the no-guild fallback of `handle_solo_registration`:
the record is stored with `payment_msg = None` and no index entry. -/
def soloSaveNoGuild (s : Store) (uid : Nat) (a1 a2 a3 a4 a5 : String) : Store :=
  { s with solos := aset uid (soloRecord uid a1 a2 a3 a4 a5) s.solos }

/-- The single save of the normal path of `handle_solo_registration`:
record (with its notice reference) plus the pending index entry. -/
def soloSave (s : Store) (uid : Nat) (a1 a2 a3 a4 a5 : String) (cm : Nat × Nat) :
    Store :=
  { s with
      solos := aset uid { soloRecord uid a1 a2 a3 a4 a5 with payment_msg := some cm } s.solos
      payments := aset (PayKey.solo uid) (soloPayEntry uid cm) s.payments }

/-- `handle_solo_registration`: five questions (each with a 600 s
timeout and a cancel check), then one `save_data`.  In the no-guild
fallback the record is saved with `payment_msg = None`; otherwise the
notice is posted first and the record, its notice reference and the
pending payment-index entry are all part of the single save. -/
def handle_solo_registration (s : Store) (uid : Nat)
    (replies : List (Option Reply)) (guildExists : Bool) (cm : Nat × Nat) :
    List Store × List VEvent × SoloOutcome :=
  match collectQuestions (List.replicate 5 SOLO_QUESTION_TIMEOUT) replies with
  | .timedOut => ([], [], .timedOut)
  | .cancelled => ([], [], .cancelled)
  | .answered answers =>
    match answers with
    | real_name :: ign :: current_rank :: peak_rank :: payment_proof :: _ =>
      if guildExists then
        ([soloSave s uid real_name ign current_rank peak_rank payment_proof cm],
          [VEvent.postNotice cm.1 cm.2], .submitted)
      else
        ([soloSaveNoGuild s uid real_name ign current_rank peak_rank payment_proof],
          [], .savedNoGuild)
    | _ => ([], [], .timedOut)

/-! ## Join-code generation and allocation -/

/-- `string.ascii_uppercase + string.digits`. -/
def ALPHABET : List Char := "ABCDEFGHIJKLMNOPQRSTUVWXYZ0123456789".toList

/-- `make_join_code`: six independent uniform picks from the 36-letter
alphabet (the random stream is passed in explicitly). -/
def make_join_code (picks : Fin 6 → Fin 36) : String :=
  ⟨(List.ofFn picks).map (fun i => ALPHABET.getD i.val 'A')⟩

/-- The `while code in data["teams"]: code = make_join_code()` loop:
take the first candidate that is not already a team key.  `none` models
the (probability-zero) divergence when every supplied candidate
collides. -/
def allocate (cands : List (Fin 6 → Fin 36)) (teams : List (String × Team)) :
    Option String :=
  (cands.map make_join_code).find? (fun c => (alookup c teams).isNone)

/-! ## Team creation flow -/

inductive TeamCreateOutcome where
  | timedOut
  | cancelled
  | stuck
  | createdNoGuild (code : String)
  | created (code : String)
  deriving DecidableEq

/-- The captain's initial member entry (`ign = None`, `paid = False`). -/
def captainMember (uid : Nat) : TeamMember :=
  { discord_id := uid, ign := none, paid := false
    payment_proof := none, payment_txn := none, payment_msg := none }

/-- The initial team structure: name, captain, the captain as sole
member, `confirmed = False`, and (not yet) an admin-notice reference. -/
def newTeam (uid : Nat) (name : String) : Team :=
  { team_name := name, captain_id := uid
    members := [captainMember uid], confirmed := false, admin_msg := none }

/-- The `data["payments"]["team-{code}-created"]` entry. -/
def teamCreatedPayEntry (code : String) (cm : Nat × Nat) : PayEntry :=
  { ptype := "team_created", team_code := some code, user_id := none
    channel_id := cm.1, message_id := cm.2, status := "awaiting_members" }

/-- First save of `handle_team_registration`: the bare team, before any
notice is posted (`admin_msg` absent). -/
def teamCreateSave1 (s : Store) (code : String) (uid : Nat) (name : String) : Store :=
  { s with teams := aset code (newTeam uid name) s.teams }

/-- Second save of `handle_team_registration`: the team now carries the
notice reference and the `team-{code}-created` index entry exists. -/
def teamCreateSave2 (s : Store) (code : String) (uid : Nat) (name : String)
    (cm : Nat × Nat) : Store :=
  let s1 := teamCreateSave1 s code uid name
  { s1 with
      teams := aset code { newTeam uid name with admin_msg := some cm } s1.teams
      payments := aset (PayKey.teamCreated code) (teamCreatedPayEntry code cm) s1.payments }

/-- `handle_team_registration`: one team-name question (300 s timeout,
cancel check), join-code allocation, then a first `save_data` with the
bare team; if a guild is available, the creation notice is posted and a
second `save_data` records `admin_msg` and the `team-{code}-created`
payment-index entry (status `awaiting_members`). -/
def handle_team_registration (s : Store) (uid : Nat)
    (nameReply : Option Reply) (cands : List (Fin 6 → Fin 36))
    (guildExists : Bool) (cm : Nat × Nat) :
    List Store × List VEvent × TeamCreateOutcome :=
  match awaitReply TEAM_NAME_TIMEOUT nameReply with
  | none => ([], [], .timedOut)
  | some txt =>
    let team_name := pyStrip txt
    if pyLower team_name = CANCEL then ([], [], .cancelled)
    else
      match allocate cands s.teams with
      | none => ([], [], .stuck)
      | some code =>
        if guildExists then
          ([teamCreateSave1 s code uid team_name,
            teamCreateSave2 s code uid team_name cm],
            [VEvent.postNotice cm.1 cm.2], .created code)
        else
          ([teamCreateSave1 s code uid team_name], [], .createdNoGuild code)

/-! ## Team join flow -/

inductive JoinOutcome where
  | missingCode
  | invalidCode
  | alreadyMember
  | teamFull
  | timedOut
  | cancelled
  | noGuild
  | joined
  deriving DecidableEq

/-- `any(m["discord_id"] == uid for m in team["members"])`. -/
def hasMember (uid : Nat) (t : Team) : Bool :=
  t.members.any (fun m => m.discord_id == uid)

/-- The reload-and-attach loop of `jointeam_cmd`: set `payment_msg` and
`payment_proof` on the first member entry with the given id, then
`break`. -/
def attachPayMsg (uid : Nat) (cm : Nat × Nat) (proof : String) :
    List TeamMember → List TeamMember
  | [] => []
  | m :: ms =>
    if m.discord_id = uid then
      { m with payment_msg := some cm, payment_proof := some proof } :: ms
    else m :: attachPayMsg uid cm proof ms

/-- The `member_entry` dict appended by `jointeam_cmd`. -/
def joinMember (uid : Nat) (ign proof : String) : TeamMember :=
  { discord_id := uid, ign := some ign, paid := false
    payment_proof := some proof, payment_txn := none, payment_msg := none }

/-- The `data["payments"]["team-{code}-member-{uid}"]` entry. -/
def teamMemberPayEntry (code : String) (uid : Nat) (cm : Nat × Nat) : PayEntry :=
  { ptype := "team_member", team_code := some code, user_id := some uid
    channel_id := cm.1, message_id := cm.2, status := "pending" }

/-- First save of `jointeam_cmd`: the member is appended with
`payment_msg = None` and no index entry yet. -/
def joinSave1 (s : Store) (code : String) (team : Team) (uid : Nat)
    (ign proof : String) : Store :=
  { s with
      teams := aset code { team with members := team.members ++ [joinMember uid ign proof] } s.teams }

/-- Second save of `jointeam_cmd` (after the reload): the appended
member carries the notice reference and the pending index entry
exists. -/
def joinSave2 (s : Store) (code : String) (team : Team) (uid : Nat)
    (ign proof : String) (cm : Nat × Nat) : Store :=
  let s1 := joinSave1 s code team uid ign proof
  let team1 := { team with members := team.members ++ [joinMember uid ign proof] }
  { s1 with
      teams := aset code { team1 with members := attachPayMsg uid cm proof team1.members } s1.teams
      payments := aset (PayKey.teamMember code uid) (teamMemberPayEntry code uid cm) s1.payments }

/-- `jointeam_cmd` (DM context assumed; the non-DM early return is not
modelled).  Validation (missing code, unknown code, already a member,
team full) happens before any question; then the IGN question (300 s
timeout, cancel check) and the payment-proof question (600 s timeout,
NO cancel check — the source accepts the literal reply as the proof).
On completion: first `save_data` appends the member (with
`payment_msg = None`), the member notice is posted, the store is
re-loaded, the notice reference attached, the pending
`team-{code}-member-{uid}` index entry written, and a second
`save_data` runs; finally the team-creation notice (if referenced) is
edited to the new member list. -/
def jointeam_cmd (s : Store) (rawCode : Option String) (uid : Nat)
    (ignReply payReply : Option Reply) (guildExists : Bool) (cm : Nat × Nat) :
    List Store × List VEvent × JoinOutcome :=
  match rawCode with
  | none => ([], [], .missingCode)
  | some rc =>
    let code := pyUpper (pyStrip rc)
    match alookup code s.teams with
    | none => ([], [], .invalidCode)
    | some team =>
      if hasMember uid team then ([], [], .alreadyMember)
      else if 5 ≤ team.members.length then ([], [], .teamFull)
      else
        match awaitReply JOIN_IGN_TIMEOUT ignReply with
        | none => ([], [], .timedOut)
        | some it =>
          let ign := pyStrip it
          if pyLower ign = CANCEL then ([], [], .cancelled)
          else
            match awaitReply JOIN_PAYMENT_TIMEOUT payReply with
            | none => ([], [], .timedOut)
            | some pt =>
              let payment_proof := pyStrip pt
              if guildExists then
                let adminEdit : List VEvent :=
                  match team.admin_msg with
                  | some am => [VEvent.editNotice am.1 am.2]
                  | none => []
                ([joinSave1 s code team uid ign payment_proof,
                  joinSave2 s code team uid ign payment_proof cm],
                  VEvent.postNotice cm.1 cm.2 :: adminEdit, .joined)
              else
                ([joinSave1 s code team uid ign payment_proof], [], .noGuild)

/-! ## Verification state machine -/

/-- Python `txn_ref or "verified-by-admin"` (`or` treats the empty
string like a missing argument). -/
def verifiedTxn (txnRef : Option String) : String :=
  match txnRef with
  | none => "verified-by-admin"
  | some t => if t = "" then "verified-by-admin" else t

/-- `data["payments"][key]["status"] = st` (only the status field of the
entry at that key changes). -/
def setPayStatus (k : PayKey) (st : String) :
    List (PayKey × PayEntry) → List (PayKey × PayEntry) :=
  List.map (fun kp => if kp.1 = k then (kp.1, { kp.2 with status := st }) else kp)

/-- The `for m in team["members"]` loop of `verify_cmd`: mark the first
member entry with the given id as paid and record the transaction
reference; later entries are untouched because the command returns. -/
def updFirstMember (uid : Nat) (txn : String) :
    List TeamMember → List TeamMember
  | [] => []
  | m :: ms =>
    if m.discord_id = uid then
      { m with paid := true, payment_txn := some txn } :: ms
    else m :: updFirstMember uid txn ms

/-- The auto-confirmation check of `verify_cmd`: if the team now has
exactly 5 members and every member is paid, set `confirmed = True`
(otherwise the flag keeps its previous value). -/
def confirmCheck (t : Team) : Team :=
  if t.members.length == 5 && t.members.all (fun m => m.paid) then
    { t with confirmed := true }
  else t

/-- The team scan of `verify_cmd`: walk `data["teams"].items()` in
order, update the first team containing the member (first matching
member entry, then the auto-confirm check) and stop.  Returns the new
team list together with the code and updated value of the touched
team. -/
def verifyTeamScan (uid : Nat) (txn : String) :
    List (String × Team) → Option (List (String × Team) × String × Team)
  | [] => none
  | (c, t) :: rest =>
    if hasMember uid t then
      let t' := confirmCheck { t with members := updFirstMember uid txn t.members }
      some ((c, t') :: rest, c, t')
    else
      match verifyTeamScan uid txn rest with
      | some (rest', c', t') => some ((c, t) :: rest', c', t')
      | none => none

inductive VerifyOutcome where
  | soloVerified
  | teamVerified (code : String)
  | notFound
  deriving DecidableEq

/-- `verify_cmd`: solo registrations are checked first; otherwise all
teams are scanned for the member.  The matching record gets
`paid = True` and the transaction reference; if the payment-index key
exists its status becomes `verified` and the stored notice is edited in
place (never re-posted).  A single `save_data` ends each found branch;
`not found` performs no save. -/
def verify_cmd (s : Store) (uid : Nat) (txnRef : Option String) :
    Store × List VEvent × VerifyOutcome :=
  match alookup uid s.solos with
  | some solo =>
    let solo' := { solo with paid := true, payment_txn := some (verifiedTxn txnRef) }
    let base := { s with solos := aset uid solo' s.solos }
    (match alookup (PayKey.solo uid) s.payments with
     | some p =>
       ({ base with payments := setPayStatus (PayKey.solo uid) "verified" s.payments },
        [VEvent.editNotice p.channel_id p.message_id], .soloVerified)
     | none => (base, [], .soloVerified))
  | none =>
    match verifyTeamScan uid (verifiedTxn txnRef) s.teams with
    | some (teams', c, _) =>
      let base := { s with teams := teams' }
      (match alookup (PayKey.teamMember c uid) s.payments with
       | some p =>
         ({ base with payments := setPayStatus (PayKey.teamMember c uid) "verified" s.payments },
          [VEvent.editNotice p.channel_id p.message_id], .teamVerified c)
       | none => (base, [], .teamVerified c))
    | none => (s, [], .notFound)

/-- The team scan of `reject_cmd`: the code of the first team containing
the member (the nested loops `break` at the first match). -/
def rejectTeamScan (uid : Nat) : List (String × Team) → Option String
  | [] => none
  | (c, t) :: rest => if hasMember uid t then some c else rejectTeamScan uid rest

inductive RejectOutcome where
  | soloRejected
  | teamRejected (code : String)
  | notFound
  deriving DecidableEq

/-- `reject_cmd`: solo first, else first team containing the member.
Only the payment-index status changes (to `rejected`) and the stored
notice is edited; the `paid` flag and every solo/team record are left
alone.  The not-found branch performs no save. -/
def reject_cmd (s : Store) (uid : Nat) : Store × List VEvent × RejectOutcome :=
  match alookup uid s.solos with
  | some _ =>
    (match alookup (PayKey.solo uid) s.payments with
     | some p =>
       ({ s with payments := setPayStatus (PayKey.solo uid) "rejected" s.payments },
        [VEvent.editNotice p.channel_id p.message_id], .soloRejected)
     | none => (s, [], .soloRejected))
  | none =>
    match rejectTeamScan uid s.teams with
    | some c =>
      (match alookup (PayKey.teamMember c uid) s.payments with
       | some p =>
         ({ s with payments := setPayStatus (PayKey.teamMember c uid) "rejected" s.payments },
          [VEvent.editNotice p.channel_id p.message_id], .teamRejected c)
       | none => (s, [], .teamRejected c))
    | none => (s, [], .notFound)

/-! ## The notice synchronizer's update path (`edit_payment_embed`) -/

/-- What the platform reports when `edit_payment_embed` tries to reach
the stored message: `guild.get_channel` may return `None`, then
`ch.fetch_message` may raise `NotFound` or `Forbidden`. -/
inductive FetchOutcome where
  | found
  | notFound
  | forbidden
  deriving DecidableEq

/-- Whether the final `msg.edit(...)` succeeds or raises `Forbidden`. -/
inductive EditOutcome where
  | ok
  | forbidden
  deriving DecidableEq

/-- The environment of one `edit_payment_embed` call. -/
structure NoticeWorld where
  channelExists : Bool
  fetch : FetchOutcome
  edit : EditOutcome
  deriving DecidableEq

/-- Externally visible effect of one `edit_payment_embed` call. -/
inductive EditAction where
  | dropped
  | edited
  | postedNew
  deriving DecidableEq

/-- `edit_payment_embed`: a missing channel or a failed
`fetch_message` (`NotFound`/`Forbidden`) returns silently; a
`Forbidden` on the final `msg.edit` falls back to `ch.send`, posting a
fresh embed. -/
def edit_payment_embed (w : NoticeWorld) : EditAction :=
  if w.channelExists then
    match w.fetch with
    | .notFound => .dropped
    | .forbidden => .dropped
    | .found =>
      match w.edit with
      | .ok => .edited
      | .forbidden => .postedNew
  else .dropped

/-! ## Reachable store states -/

/-- One user-or-admin operation together with all its external inputs
(replies, random stream, guild availability, fresh message ids). -/
inductive Op where
  | soloReg (uid : Nat) (replies : List (Option Reply)) (g : Bool) (cm : Nat × Nat)
  | teamCreate (uid : Nat) (nameReply : Option Reply)
      (cands : List (Fin 6 → Fin 36)) (g : Bool) (cm : Nat × Nat)
  | join (rawCode : Option String) (uid : Nat) (ignReply payReply : Option Reply)
      (g : Bool) (cm : Nat × Nat)
  | verify (uid : Nat) (txnRef : Option String)
  | reject (uid : Nat)

/-- The sequence of `save_data` snapshots one operation writes when run
from store `s` (admin commands write at most their final state). -/
def opSaves (s : Store) : Op → List Store
  | .soloReg uid replies g cm => (handle_solo_registration s uid replies g cm).1
  | .teamCreate uid nr cands g cm => (handle_team_registration s uid nr cands g cm).1
  | .join rc uid ir pr g cm => (jointeam_cmd s rc uid ir pr g cm).1
  | .verify uid txn => [(verify_cmd s uid txn).1]
  | .reject uid => [(reject_cmd s uid).1]

/-- Store states observable in `data.json`: the initial empty document
and every snapshot saved by an operation run from a reachable state
(operations run sequentially; every intermediate save is observable). -/
inductive Reachable : Store → Prop
  | init : Reachable initialStore
  | step {s s' : Store} (op : Op) (h : Reachable s) (hs : s' ∈ opSaves s op) :
      Reachable s'

/-- Conformance of one team record to the auto-confirmation invariant:
the `confirmed` flag holds exactly when the team has five members, all
paid. -/
def teamOK (t : Team) : Prop :=
  t.confirmed = (t.members.length == 5 && t.members.all (fun m => m.paid))

/-! ## The store invariant -/

/-- Conformance of one payment-index entry to its key: the `type` field
matches the key shape, and the status is `awaiting_members` for the
team-creation entry and one of pending/verified/rejected for the two
per-payment kinds. -/
def payOK (k : PayKey) (p : PayEntry) : Prop :=
  match k with
  | .solo _ =>
    p.ptype = "solo" ∧
      (p.status = "pending" ∨ p.status = "verified" ∨ p.status = "rejected")
  | .teamCreated _ => p.ptype = "team_created" ∧ p.status = "awaiting_members"
  | .teamMember _ _ =>
    p.ptype = "team_member" ∧
      (p.status = "pending" ∨ p.status = "verified" ∨ p.status = "rejected")

/-- Invariant carried through every reachable store state. -/
def StoreInv (s : Store) : Prop :=
  (∀ kp ∈ s.payments, payOK kp.1 kp.2) ∧
    (∀ ct ∈ s.teams, teamOK ct.2) ∧
    (s.teams.map Prod.fst).Nodup

/-! ## Concrete runs used as witnesses

A fixed scenario: user 1 creates team "Foxes" (join code `AAAAAA`, the
random stream being all zeros), users 2-5 join it, and an admin verifies
all five members in turn. -/

/-- Example operation: captain 1 creates team "Foxes" (random stream all zeros). -/
def exTeamOp : Op := Op.teamCreate 1 (some ("Foxes", 10)) [fun _ => 0] true (7, 8)

def exTeamSave1 : Store := teamCreateSave1 initialStore "AAAAAA" 1 "Foxes"

def exTeamSave2 : Store := teamCreateSave2 initialStore "AAAAAA" 1 "Foxes" (7, 8)

def joinOp (uid : Nat) : Op :=
  Op.join (some "AAAAAA") uid (some ("IGN", 1)) (some ("pf", 1)) true (100 + uid, 200 + uid)

def chainStep (s : Store) (op : Op) : Store := (opSaves s op).getLastD s

def exFull : Store :=
  let s2 := exTeamSave2
  let s3 := chainStep s2 (joinOp 2)
  let s4 := chainStep s3 (joinOp 3)
  let s5 := chainStep s4 (joinOp 4)
  let s6 := chainStep s5 (joinOp 5)
  let s7 := chainStep s6 (Op.verify 1 (some "T1"))
  let s8 := chainStep s7 (Op.verify 2 (some "T2"))
  let s9 := chainStep s8 (Op.verify 3 none)
  let s10 := chainStep s9 (Op.verify 4 (some "T4"))
  chainStep s10 (Op.verify 5 (some "T5"))

def exS3 : Store := chainStep exTeamSave2 (joinOp 2)

def exS4 : Store := chainStep exS3 (joinOp 3)

def exS5 : Store := chainStep exS4 (joinOp 4)

def exS6 : Store := chainStep exS5 (joinOp 5)

def exS7 : Store := chainStep exS6 (Op.verify 1 (some "T1"))

def exS8 : Store := chainStep exS7 (Op.verify 2 (some "T2"))

def exS9 : Store := chainStep exS8 (Op.verify 3 none)

def exS10 : Store := chainStep exS9 (Op.verify 4 (some "T4"))

def exS11 : Store := chainStep exS10 (Op.verify 5 (some "T5"))

def exS11team : Team := (alookup "AAAAAA" exS11.teams).getD (newTeam 0 "")

def exTeam2Op : Op := Op.teamCreate 9 (some ("Wolves", 10)) [fun _ => 1] true (9, 10)

def exM0 : Store := chainStep exS3 exTeam2Op

def exM : Store :=
  chainStep exM0 (Op.join (some "BBBBBB") 2 (some ("IGN", 1)) (some ("pf", 1)) true (301, 302))

def exMteamA : Team := (alookup "AAAAAA" exM.teams).getD (newTeam 0 "")

def exMteamB : Team := (alookup "BBBBBB" exM.teams).getD (newTeam 0 "")

/-! ## Claims C1, C3, C6 and C9 -/

/-- A step's reply arrives within the timeout and does not normalize to
the cancel keyword. -/
def answersStep (tmo : Nat) (r : Option Reply) : Prop :=
  ∃ txt, awaitReply tmo r = some txt ∧ pyLower (pyStrip txt) ≠ CANCEL

/-- A step's reply arrives within the timeout and normalizes to the
cancel keyword. -/
def cancelsStep (tmo : Nat) (r : Option Reply) : Prop :=
  ∃ txt, awaitReply tmo r = some txt ∧ pyLower (pyStrip txt) = CANCEL

def exSolo : Store :=
  chainStep initialStore (Op.soloReg 42
    [some ("Alice Smith", 1), some ("AliceIGN", 1), some ("Gold II", 1),
      some ("Immortal I", 1), some ("TXN123", 1)] true (5, 6))

def exSoloRec : SoloReg := (alookup 42 exSolo.solos).getD (soloRecord 0 "" "" "" "" "")

/-! ## Lemmas and claim theorems -/

/-! ## Association-list lemmas -/

theorem alookup_eq_none_iff [DecidableEq κ] {k : κ} {l : List (κ × α)} :
    alookup k l = none ↔ k ∉ l.map Prod.fst := by
  induction l with
  | nil => simp [alookup]
  | cons kv rest ih =>
    obtain ⟨k', v⟩ := kv
    by_cases h : k' = k
    · subst h; simp [alookup]
    · simp [alookup, h, ih, Ne.symm h]

theorem alookup_mem [DecidableEq κ] {k : κ} {v : α} {l : List (κ × α)}
    (h : alookup k l = some v) : (k, v) ∈ l := by
  induction l with
  | nil => simp [alookup] at h
  | cons kv rest ih =>
    obtain ⟨k', v'⟩ := kv
    by_cases hk : k' = k
    · subst hk
      simp [alookup] at h
      simp [h]
    · simp [alookup, hk] at h
      exact List.mem_cons_of_mem _ (ih h)

theorem mem_aset [DecidableEq κ] {x : κ × α} {k : κ} {v : α} {l : List (κ × α)}
    (h : x ∈ aset k v l) : x = (k, v) ∨ x ∈ l := by
  induction l with
  | nil => simpa [aset] using h
  | cons kv rest ih =>
    obtain ⟨k', v'⟩ := kv
    by_cases hk : k' = k
    · subst hk
      simp [aset] at h
      rcases h with h | h
      · exact Or.inl (by simp [h])
      · exact Or.inr (List.mem_cons_of_mem _ h)
    · simp [aset, hk] at h
      rcases h with h | h
      · exact Or.inr (by simp [h])
      · rcases ih h with h' | h'
        · exact Or.inl h'
        · exact Or.inr (List.mem_cons_of_mem _ h')

theorem alookup_aset_self [DecidableEq κ] (k : κ) (v : α) (l : List (κ × α)) :
    alookup k (aset k v l) = some v := by
  induction l with
  | nil => simp [aset, alookup]
  | cons kv rest ih =>
    obtain ⟨k', v'⟩ := kv
    by_cases hk : k' = k
    · subst hk; simp [aset, alookup]
    · simp [aset, alookup, hk, ih]

theorem alookup_aset_ne [DecidableEq κ] {k k' : κ} (h : k' ≠ k) (v : α)
    (l : List (κ × α)) : alookup k' (aset k v l) = alookup k' l := by
  induction l with
  | nil => simp [aset, alookup, Ne.symm h]
  | cons kv rest ih =>
    obtain ⟨k₀, v₀⟩ := kv
    by_cases hk : k₀ = k
    · subst hk; simp [aset, alookup, Ne.symm h]
    · simp [aset, alookup, hk, ih]

theorem keys_aset_of_none [DecidableEq κ] {k : κ} {l : List (κ × α)}
    (h : alookup k l = none) (v : α) :
    (aset k v l).map Prod.fst = l.map Prod.fst ++ [k] := by
  induction l with
  | nil => simp [aset]
  | cons kv rest ih =>
    obtain ⟨k', v'⟩ := kv
    by_cases hk : k' = k
    · subst hk; simp [alookup] at h
    · simp [alookup, hk] at h
      simp [aset, hk, ih h]

theorem keys_aset_of_some [DecidableEq κ] {k : κ} {l : List (κ × α)} {w : α}
    (h : alookup k l = some w) (v : α) :
    (aset k v l).map Prod.fst = l.map Prod.fst := by
  induction l with
  | nil => simp [alookup] at h
  | cons kv rest ih =>
    obtain ⟨k', v'⟩ := kv
    by_cases hk : k' = k
    · subst hk; simp [aset]
    · simp [alookup, hk] at h
      simp [aset, hk, ih h]

/-! ## Member-list and team-scan lemmas -/

theorem updFirstMember_length (uid : Nat) (txn : String) (ms : List TeamMember) :
    (updFirstMember uid txn ms).length = ms.length := by
  induction ms with
  | nil => simp [updFirstMember]
  | cons m rest ih =>
    by_cases h : m.discord_id = uid
    · simp [updFirstMember, h]
    · simp [updFirstMember, h, ih]

theorem updFirstMember_all_paid {uid : Nat} {txn : String} {ms : List TeamMember}
    (h : ms.all (fun m => m.paid) = true) :
    (updFirstMember uid txn ms).all (fun m => m.paid) = true := by
  induction ms with
  | nil => simp [updFirstMember]
  | cons m rest ih =>
    simp only [List.all_cons, Bool.and_eq_true] at h
    by_cases hd : m.discord_id = uid
    · simp [updFirstMember, hd, h.2]
    · simp [updFirstMember, hd, h.1, ih h.2]

theorem attachPayMsg_length (uid : Nat) (cm : Nat × Nat) (pf : String)
    (ms : List TeamMember) : (attachPayMsg uid cm pf ms).length = ms.length := by
  induction ms with
  | nil => simp [attachPayMsg]
  | cons m rest ih =>
    by_cases h : m.discord_id = uid
    · simp [attachPayMsg, h]
    · simp [attachPayMsg, h, ih]

theorem attachPayMsg_all_paid (uid : Nat) (cm : Nat × Nat) (pf : String)
    (ms : List TeamMember) :
    (attachPayMsg uid cm pf ms).all (fun m => m.paid) =
      ms.all (fun m => m.paid) := by
  induction ms with
  | nil => simp [attachPayMsg]
  | cons m rest ih =>
    by_cases h : m.discord_id = uid
    · simp [attachPayMsg, h]
    · simp [attachPayMsg, h, ih]

theorem teamOK_confirmCheck_upd {t : Team} (h : teamOK t) (uid : Nat)
    (txn : String) :
    teamOK (confirmCheck { t with members := updFirstMember uid txn t.members }) := by
  unfold teamOK confirmCheck at *
  by_cases hc :
      ((updFirstMember uid txn t.members).length == 5 &&
        (updFirstMember uid txn t.members).all (fun m => m.paid)) = true
  · simp [hc]
  · rw [if_neg hc]
    show t.confirmed = ((updFirstMember uid txn t.members).length == 5 &&
        (updFirstMember uid txn t.members).all (fun m => m.paid))
    rw [h]
    cases hL : (t.members.length == 5 && t.members.all fun m => m.paid) with
    | false =>
      cases hR : ((updFirstMember uid txn t.members).length == 5 &&
          (updFirstMember uid txn t.members).all (fun m => m.paid)) with
      | false => rfl
      | true => exact absurd hR hc
    | true =>
      simp only [Bool.and_eq_true, beq_iff_eq] at hL
      refine absurd ?_ hc
      simp only [Bool.and_eq_true, beq_iff_eq]
      exact ⟨by rw [updFirstMember_length, hL.1], updFirstMember_all_paid hL.2⟩

theorem verifyTeamScan_mem {uid : Nat} {txn : String} {l l' : List (String × Team)}
    {c : String} {t' : Team}
    (h : verifyTeamScan uid txn l = some (l', c, t')) :
    ∀ x ∈ l', x ∈ l ∨
      ∃ t0 : Team, (x.1, t0) ∈ l ∧
        x.2 = confirmCheck { t0 with members := updFirstMember uid txn t0.members } := by
  induction l generalizing l' with
  | nil => simp [verifyTeamScan] at h
  | cons ct rest ih =>
    obtain ⟨c₀, t₀⟩ := ct
    by_cases hm : hasMember uid t₀
    · simp [verifyTeamScan, hm] at h
      obtain ⟨h1, _, _⟩ := h
      intro x hx
      rw [← h1] at hx
      rcases List.mem_cons.mp hx with hx | hx
      · exact Or.inr ⟨t₀, by simp [hx], by simp [hx]⟩
      · exact Or.inl (List.mem_cons_of_mem _ hx)
    · simp only [verifyTeamScan, hm, Bool.false_eq_true, if_false] at h
      cases hrec : verifyTeamScan uid txn rest with
      | none => rw [hrec] at h; simp at h
      | some res =>
        obtain ⟨rest', c', tt⟩ := res
        rw [hrec] at h
        simp at h
        obtain ⟨h1, h2, h3⟩ := h
        subst h2; subst h3
        intro x hx
        rw [← h1] at hx
        rcases List.mem_cons.mp hx with hx | hx
        · exact Or.inl (by simp [hx])
        · rcases ih hrec x hx with hh | ⟨t0, ht0, hx2⟩
          · exact Or.inl (List.mem_cons_of_mem _ hh)
          · exact Or.inr ⟨t0, List.mem_cons_of_mem _ ht0, hx2⟩

theorem verifyTeamScan_keys {uid : Nat} {txn : String} {l l' : List (String × Team)}
    {c : String} {t' : Team}
    (h : verifyTeamScan uid txn l = some (l', c, t')) :
    l'.map Prod.fst = l.map Prod.fst := by
  induction l generalizing l' with
  | nil => simp [verifyTeamScan] at h
  | cons ct rest ih =>
    obtain ⟨c₀, t₀⟩ := ct
    by_cases hm : hasMember uid t₀
    · simp [verifyTeamScan, hm] at h
      rw [← h.1]
      simp
    · simp only [verifyTeamScan, hm, Bool.false_eq_true, if_false] at h
      cases hrec : verifyTeamScan uid txn rest with
      | none => rw [hrec] at h; simp at h
      | some res =>
        obtain ⟨rest', c', tt⟩ := res
        rw [hrec] at h
        simp at h
        obtain ⟨h1, h2, h3⟩ := h
        subst h2; subst h3
        rw [← h1]
        simp [ih hrec]

/-! ## Characterizing the saves of each flow -/

theorem solo_saves_cases {s : Store} {uid : Nat} {replies : List (Option Reply)}
    {g : Bool} {cm : Nat × Nat} :
    ∀ s' ∈ (handle_solo_registration s uid replies g cm).1,
      ∃ a1 a2 a3 a4 a5 : String,
        s' = soloSaveNoGuild s uid a1 a2 a3 a4 a5 ∨
          s' = soloSave s uid a1 a2 a3 a4 a5 cm := by
  intro s' hs
  unfold handle_solo_registration at hs
  cases hq : collectQuestions (List.replicate 5 SOLO_QUESTION_TIMEOUT) replies with
  | timedOut => rw [hq] at hs; simp at hs
  | cancelled => rw [hq] at hs; simp at hs
  | answered answers =>
    rw [hq] at hs
    match answers with
    | [] => simp at hs
    | [a1] => simp at hs
    | [a1, a2] => simp at hs
    | [a1, a2, a3] => simp at hs
    | [a1, a2, a3, a4] => simp at hs
    | a1 :: a2 :: a3 :: a4 :: a5 :: rest =>
      cases g with
      | true =>
        simp at hs
        exact ⟨a1, a2, a3, a4, a5, Or.inr hs⟩
      | false =>
        simp at hs
        exact ⟨a1, a2, a3, a4, a5, Or.inl hs⟩

theorem teamCreate_saves_cases {s : Store} {uid : Nat} {nr : Option Reply}
    {cands : List (Fin 6 → Fin 36)} {g : Bool} {cm : Nat × Nat} :
    ∀ s' ∈ (handle_team_registration s uid nr cands g cm).1,
      ∃ code name,
        allocate cands s.teams = some code ∧
          (s' = teamCreateSave1 s code uid name ∨
            s' = teamCreateSave2 s code uid name cm) := by
  intro s' hs
  unfold handle_team_registration at hs
  cases hw : awaitReply TEAM_NAME_TIMEOUT nr with
  | none => rw [hw] at hs; simp at hs
  | some txt =>
    rw [hw] at hs
    simp only [] at hs
    by_cases hcan : pyLower (pyStrip txt) = CANCEL
    · simp [hcan] at hs
    · rw [if_neg hcan] at hs
      cases hal : allocate cands s.teams with
      | none => rw [hal] at hs; simp at hs
      | some code =>
        rw [hal] at hs
        cases g with
        | true =>
          simp at hs
          rcases hs with hs | hs
          · exact ⟨code, pyStrip txt, rfl, Or.inl hs⟩
          · exact ⟨code, pyStrip txt, rfl, Or.inr hs⟩
        | false =>
          simp at hs
          exact ⟨code, pyStrip txt, rfl, Or.inl hs⟩

theorem join_saves_cases {s : Store} {rc : Option String} {uid : Nat}
    {ir pr : Option Reply} {g : Bool} {cm : Nat × Nat} :
    ∀ s' ∈ (jointeam_cmd s rc uid ir pr g cm).1,
      ∃ code team ign proof,
        alookup code s.teams = some team ∧ hasMember uid team = false ∧
          team.members.length < 5 ∧
          (s' = joinSave1 s code team uid ign proof ∨
            s' = joinSave2 s code team uid ign proof cm) := by
  intro s' hs
  unfold jointeam_cmd at hs
  cases rc with
  | none => simp at hs
  | some rcs =>
    simp only [] at hs
    cases hlk : alookup (pyUpper (pyStrip rcs)) s.teams with
    | none => rw [hlk] at hs; simp at hs
    | some team =>
      rw [hlk] at hs
      by_cases hmem : hasMember uid team
      · simp [hmem] at hs
      · simp only [hmem, Bool.false_eq_true, if_false] at hs
        by_cases hfull : 5 ≤ team.members.length
        · rw [if_pos hfull] at hs; simp at hs
        · rw [if_neg hfull] at hs
          cases hw1 : awaitReply JOIN_IGN_TIMEOUT ir with
          | none => rw [hw1] at hs; simp at hs
          | some it =>
            rw [hw1] at hs
            dsimp only [] at hs
            by_cases hcan : pyLower (pyStrip it) = CANCEL
            · simp [hcan] at hs
            · rw [if_neg hcan] at hs
              cases hw2 : awaitReply JOIN_PAYMENT_TIMEOUT pr with
              | none => rw [hw2] at hs; simp at hs
              | some pt =>
                rw [hw2] at hs
                dsimp only [] at hs
                cases g with
                | true =>
                  simp at hs
                  rcases hs with hs | hs
                  · exact ⟨_, team, _, _, hlk, by simpa using hmem,
                      by omega, Or.inl hs⟩
                  · exact ⟨_, team, _, _, hlk, by simpa using hmem,
                      by omega, Or.inr hs⟩
                | false =>
                  simp at hs
                  exact ⟨_, team, _, _, hlk, by simpa using hmem,
                    by omega, Or.inl hs⟩

/-! ## Preservation of the invariant by every operation -/

theorem allocate_fresh {cands : List (Fin 6 → Fin 36)} {teams : List (String × Team)}
    {code : String} (h : allocate cands teams = some code) :
    alookup code teams = none := by
  unfold allocate at h
  have := List.find?_some h
  simpa using this

theorem payOK_setPayStatus {ps : List (PayKey × PayEntry)}
    (hp : ∀ kp ∈ ps, payOK kp.1 kp.2) {k : PayKey} {st : String}
    (hst : st = "verified" ∨ st = "rejected")
    (hk : (∃ u, k = PayKey.solo u) ∨ ∃ c u, k = PayKey.teamMember c u) :
    ∀ kp ∈ setPayStatus k st ps, payOK kp.1 kp.2 := by
  intro kp hkp
  unfold setPayStatus at hkp
  obtain ⟨y, hy, hfy⟩ := List.mem_map.mp hkp
  by_cases hyk : y.1 = k
  · rw [if_pos hyk] at hfy
    subst hfy
    have hold := hp y hy
    rw [hyk] at hold ⊢
    rcases hk with ⟨u, rfl⟩ | ⟨c, u, rfl⟩
    · rcases hst with rfl | rfl
      · exact ⟨hold.1, Or.inr (Or.inl rfl)⟩
      · exact ⟨hold.1, Or.inr (Or.inr rfl)⟩
    · rcases hst with rfl | rfl
      · exact ⟨hold.1, Or.inr (Or.inl rfl)⟩
      · exact ⟨hold.1, Or.inr (Or.inr rfl)⟩
  · rw [if_neg hyk] at hfy
    subst hfy
    exact hp y hy

theorem storeInv_verify {s : Store} {uid : Nat} {txn : Option String}
    (h : StoreInv s) : StoreInv (verify_cmd s uid txn).1 := by
  obtain ⟨hp, ht, hn⟩ := h
  unfold verify_cmd
  cases hsl : alookup uid s.solos with
  | some solo =>
    dsimp only []
    cases hpk : alookup (PayKey.solo uid) s.payments with
    | some p =>
      dsimp only []
      exact ⟨payOK_setPayStatus hp (Or.inl rfl) (Or.inl ⟨uid, rfl⟩), ht, hn⟩
    | none =>
      dsimp only []
      exact ⟨hp, ht, hn⟩
  | none =>
    dsimp only []
    cases hscan : verifyTeamScan uid (verifiedTxn txn) s.teams with
    | none => dsimp only []; exact ⟨hp, ht, hn⟩
    | some res =>
      obtain ⟨teams', c, t'⟩ := res
      have htm : ∀ ct ∈ teams', teamOK ct.2 := by
        intro x hx
        rcases verifyTeamScan_mem hscan x hx with hx' | ⟨t0, ht0, hx2⟩
        · exact ht x hx'
        · rw [hx2]
          exact teamOK_confirmCheck_upd (ht (x.1, t0) ht0) uid (verifiedTxn txn)
      have hkeys : teams'.map Prod.fst = s.teams.map Prod.fst :=
        verifyTeamScan_keys hscan
      dsimp only []
      cases hpk : alookup (PayKey.teamMember c uid) s.payments with
      | some p =>
        dsimp only []
        refine ⟨payOK_setPayStatus hp (Or.inl rfl) (Or.inr ⟨c, uid, rfl⟩), htm, ?_⟩
        rw [hkeys]; exact hn
      | none =>
        dsimp only []
        exact ⟨hp, htm, by rw [hkeys]; exact hn⟩

theorem storeInv_reject {s : Store} {uid : Nat}
    (h : StoreInv s) : StoreInv (reject_cmd s uid).1 := by
  obtain ⟨hp, ht, hn⟩ := h
  unfold reject_cmd
  cases hsl : alookup uid s.solos with
  | some solo =>
    dsimp only []
    cases hpk : alookup (PayKey.solo uid) s.payments with
    | some p =>
      dsimp only []
      exact ⟨payOK_setPayStatus hp (Or.inr rfl) (Or.inl ⟨uid, rfl⟩), ht, hn⟩
    | none => dsimp only []; exact ⟨hp, ht, hn⟩
  | none =>
    dsimp only []
    cases hscan : rejectTeamScan uid s.teams with
    | none => dsimp only []; exact ⟨hp, ht, hn⟩
    | some c =>
      dsimp only []
      cases hpk : alookup (PayKey.teamMember c uid) s.payments with
      | some p =>
        dsimp only []
        exact ⟨payOK_setPayStatus hp (Or.inr rfl) (Or.inr ⟨c, uid, rfl⟩), ht, hn⟩
      | none =>
        dsimp only []
        exact ⟨hp, ht, hn⟩

theorem nodup_keys_aset_fresh [DecidableEq κ] {k : κ} {l : List (κ × α)}
    (hfresh : alookup k l = none) (hn : (l.map Prod.fst).Nodup) (v : α) :
    ((aset k v l).map Prod.fst).Nodup := by
  rw [keys_aset_of_none hfresh]
  simp [List.nodup_append, hn]
  intro x hx
  exact alookup_eq_none_iff.mp hfresh (by simpa using List.mem_map_of_mem Prod.fst hx)

theorem storeInv_soloSaveNoGuild {s : Store} (h : StoreInv s)
    (uid : Nat) (a1 a2 a3 a4 a5 : String) :
    StoreInv (soloSaveNoGuild s uid a1 a2 a3 a4 a5) := h

theorem storeInv_soloSave {s : Store} (h : StoreInv s)
    (uid : Nat) (a1 a2 a3 a4 a5 : String) (cm : Nat × Nat) :
    StoreInv (soloSave s uid a1 a2 a3 a4 a5 cm) := by
  obtain ⟨hp, ht, hn⟩ := h
  refine ⟨?_, ht, hn⟩
  intro kp hkp
  rcases mem_aset hkp with rfl | hkp
  · simp [payOK, soloPayEntry]
  · exact hp kp hkp

theorem teamOK_newTeam (uid : Nat) (name : String) : teamOK (newTeam uid name) := by
  simp [teamOK, newTeam, captainMember]

theorem storeInv_teamCreateSave1 {s : Store} {cands : List (Fin 6 → Fin 36)}
    {code : String} (h : StoreInv s) (hal : allocate cands s.teams = some code)
    (uid : Nat) (name : String) :
    StoreInv (teamCreateSave1 s code uid name) := by
  obtain ⟨hp, ht, hn⟩ := h
  refine ⟨hp, ?_, nodup_keys_aset_fresh (allocate_fresh hal) hn _⟩
  intro ct hct
  rcases mem_aset hct with rfl | hct
  · exact teamOK_newTeam uid name
  · exact ht ct hct

theorem storeInv_teamCreateSave2 {s : Store} {cands : List (Fin 6 → Fin 36)}
    {code : String} (h : StoreInv s) (hal : allocate cands s.teams = some code)
    (uid : Nat) (name : String) (cm : Nat × Nat) :
    StoreInv (teamCreateSave2 s code uid name cm) := by
  obtain ⟨hp1, ht1, hn1⟩ := storeInv_teamCreateSave1 h hal uid name
  refine ⟨?_, ?_, ?_⟩
  · intro kp hkp
    rcases mem_aset hkp with rfl | hkp
    · simp [payOK, teamCreatedPayEntry]
    · exact hp1 kp hkp
  · intro ct hct
    rcases mem_aset hct with rfl | hct
    · simp [teamOK, newTeam, captainMember]
    · exact ht1 ct hct
  · have : alookup code (teamCreateSave1 s code uid name).teams = some (newTeam uid name) :=
      alookup_aset_self _ _ _
    rw [show (teamCreateSave2 s code uid name cm).teams =
        aset code { newTeam uid name with admin_msg := some cm }
          (teamCreateSave1 s code uid name).teams from rfl]
    rw [keys_aset_of_some this]
    exact hn1

theorem teamOK_joinAppend {team : Team} (ht : teamOK team)
    (hlen : team.members.length < 5) (uid : Nat) (ign proof : String) :
    teamOK { team with members := team.members ++ [joinMember uid ign proof] } := by
  unfold teamOK at *
  have hc : team.confirmed = false := by
    rw [ht]
    simp only [Bool.and_eq_false_iff]
    left
    simp only [beq_eq_false_iff_ne, ne_eq]
    omega
  simp [hc, joinMember]

theorem storeInv_joinSave1 {s : Store} {code : String} {team : Team}
    (h : StoreInv s) (hlk : alookup code s.teams = some team)
    (hlen : team.members.length < 5) (uid : Nat) (ign proof : String) :
    StoreInv (joinSave1 s code team uid ign proof) := by
  obtain ⟨hp, ht, hn⟩ := h
  refine ⟨hp, ?_, ?_⟩
  · intro ct hct
    rcases mem_aset hct with rfl | hct
    · exact teamOK_joinAppend (ht _ (alookup_mem hlk)) hlen uid ign proof
    · exact ht ct hct
  · rw [show (joinSave1 s code team uid ign proof).teams =
        aset code { team with members := team.members ++ [joinMember uid ign proof] } s.teams from rfl]
    rw [keys_aset_of_some hlk]
    exact hn

theorem storeInv_joinSave2 {s : Store} {code : String} {team : Team}
    (h : StoreInv s) (hlk : alookup code s.teams = some team)
    (hlen : team.members.length < 5) (uid : Nat) (ign proof : String)
    (cm : Nat × Nat) :
    StoreInv (joinSave2 s code team uid ign proof cm) := by
  obtain ⟨hp1, ht1, hn1⟩ := storeInv_joinSave1 h hlk hlen uid ign proof
  have hmem1 : alookup code (joinSave1 s code team uid ign proof).teams =
      some { team with members := team.members ++ [joinMember uid ign proof] } :=
    alookup_aset_self _ _ _
  refine ⟨?_, ?_, ?_⟩
  · intro kp hkp
    rcases mem_aset hkp with rfl | hkp
    · simp [payOK, teamMemberPayEntry]
    · exact hp1 kp hkp
  · intro ct hct
    rcases mem_aset hct with rfl | hct
    · have htOK := ht1 _ (alookup_mem hmem1)
      unfold teamOK at *
      simp only [attachPayMsg_length, attachPayMsg_all_paid]
      exact htOK
    · exact ht1 ct hct
  · rw [show (joinSave2 s code team uid ign proof cm).teams =
        aset code _ (joinSave1 s code team uid ign proof).teams from rfl]
    rw [keys_aset_of_some hmem1]
    exact hn1

theorem storeInv_initial : StoreInv initialStore := by
  refine ⟨?_, ?_, ?_⟩ <;> simp [initialStore]

theorem storeInv_opSaves {s s' : Store} {op : Op} (h : StoreInv s)
    (hs : s' ∈ opSaves s op) : StoreInv s' := by
  cases op with
  | soloReg uid replies g cm =>
    obtain ⟨a1, a2, a3, a4, a5, hcase⟩ := solo_saves_cases s' hs
    rcases hcase with rfl | rfl
    · exact storeInv_soloSaveNoGuild h uid a1 a2 a3 a4 a5
    · exact storeInv_soloSave h uid a1 a2 a3 a4 a5 cm
  | teamCreate uid nr cands g cm =>
    obtain ⟨code, name, hal, hcase⟩ := teamCreate_saves_cases s' hs
    rcases hcase with rfl | rfl
    · exact storeInv_teamCreateSave1 h hal uid name
    · exact storeInv_teamCreateSave2 h hal uid name cm
  | join rc uid ir pr g cm =>
    obtain ⟨code, team, ign, proof, hlk, hmem, hlen, hcase⟩ := join_saves_cases s' hs
    rcases hcase with rfl | rfl
    · exact storeInv_joinSave1 h hlk hlen uid ign proof
    · exact storeInv_joinSave2 h hlk hlen uid ign proof cm
  | verify uid txn =>
    simp only [opSaves, List.mem_singleton] at hs
    subst hs
    exact storeInv_verify h
  | reject uid =>
    simp only [opSaves, List.mem_singleton] at hs
    subst hs
    exact storeInv_reject h

/-- Every reachable store state satisfies the invariant. -/
theorem reachable_storeInv {s : Store} (h : Reachable s) : StoreInv s := by
  induction h with
  | init => exact storeInv_initial
  | step op h hs ih => exact storeInv_opSaves ih hs

theorem exTeam_saves : opSaves initialStore exTeamOp = [exTeamSave1, exTeamSave2] := rfl

theorem reachable_exTeamSave1 : Reachable exTeamSave1 :=
  Reachable.step exTeamOp Reachable.init (by rw [exTeam_saves]; simp)

theorem reachable_exTeamSave2 : Reachable exTeamSave2 :=
  Reachable.step exTeamOp Reachable.init (by rw [exTeam_saves]; simp)

theorem mem_getLastD {α : Type _} : ∀ (l : List α) (d : α), l ≠ [] → l.getLastD d ∈ l
  | [], _, h => absurd rfl h
  | [a], d, _ => by simp [List.getLastD]
  | a :: b :: bs, d, _ => by
    rw [List.getLastD_cons]
    exact List.mem_cons_of_mem _ (mem_getLastD (b :: bs) a (by simp))

theorem reachable_chainStep {s : Store} (h : Reachable s) (op : Op)
    (hne : opSaves s op ≠ []) : Reachable (chainStep s op) :=
  Reachable.step op h (mem_getLastD _ _ hne)

theorem reachable_exS11 : Reachable exS11 := by
  refine reachable_chainStep (reachable_chainStep (reachable_chainStep
    (reachable_chainStep (reachable_chainStep (reachable_chainStep
      (reachable_chainStep (reachable_chainStep (reachable_chainStep
        reachable_exTeamSave2 _ ?_) _ ?_) _ ?_) _ ?_) _ ?_) _ ?_) _ ?_) _ ?_) _ ?_ <;>
    decide

/-! ## Claims C2, C4 and C8 -/

/-- C2 counterexample: team creation writes a payment-index entry
(`team-{code}-created`) whose status is `awaiting_members`, which is not
one of pending/verified/rejected, and that store state is reachable. -/
theorem C2_counterexample :
    Reachable exTeamSave2 ∧
      alookup (PayKey.teamCreated "AAAAAA") exTeamSave2.payments =
        some (teamCreatedPayEntry "AAAAAA" (7, 8)) ∧
      (teamCreatedPayEntry "AAAAAA" (7, 8)).status = "awaiting_members" ∧
      ¬((teamCreatedPayEntry "AAAAAA" (7, 8)).status = "pending" ∨
        (teamCreatedPayEntry "AAAAAA" (7, 8)).status = "verified" ∨
        (teamCreatedPayEntry "AAAAAA" (7, 8)).status = "rejected") :=
  ⟨reachable_exTeamSave2, rfl, rfl, by decide⟩

/-- C2 (amended): in every reachable store state, every payment-index
entry's status is one of pending, verified, rejected or
`awaiting_members`, and the status is `awaiting_members` exactly for the
team-creation entries (kind `team_created`); entries of kind `solo` and
`team_member` always carry one of pending/verified/rejected. -/
theorem C2_payment_status_amended {s : Store} (h : Reachable s) :
    ∀ kp ∈ s.payments,
      (kp.2.status = "pending" ∨ kp.2.status = "verified" ∨
        kp.2.status = "rejected" ∨ kp.2.status = "awaiting_members") ∧
      (kp.2.status = "awaiting_members" ↔ kp.2.ptype = "team_created") := by
  intro kp hkp
  have hOK := (reachable_storeInv h).1 kp hkp
  cases hk : kp.1 with
  | solo u =>
    rw [hk] at hOK
    obtain ⟨hpt, hst⟩ := hOK
    refine ⟨by tauto, ?_, ?_⟩
    · intro hsta
      rcases hst with h1 | h1 | h1 <;> rw [h1] at hsta <;> exact absurd hsta (by decide)
    · intro hpt2
      rw [hpt] at hpt2
      exact absurd hpt2 (by decide)
  | teamCreated c =>
    rw [hk] at hOK
    obtain ⟨hpt, hst⟩ := hOK
    exact ⟨by tauto, by simp [hst, hpt]⟩
  | teamMember c u =>
    rw [hk] at hOK
    obtain ⟨hpt, hst⟩ := hOK
    refine ⟨by tauto, ?_, ?_⟩
    · intro hsta
      rcases hst with h1 | h1 | h1 <;> rw [h1] at hsta <;> exact absurd hsta (by decide)
    · intro hpt2
      rw [hpt] at hpt2
      exact absurd hpt2 (by decide)

/-- Witness for C2 (amended) at the concrete reachable state
`exTeamSave2`. -/
theorem C2_payment_status_amended_witness :
    ((PayKey.teamCreated "AAAAAA", teamCreatedPayEntry "AAAAAA" (7, 8)) ∈
        exTeamSave2.payments) ∧
      (((teamCreatedPayEntry "AAAAAA" (7, 8)).status = "pending" ∨
          (teamCreatedPayEntry "AAAAAA" (7, 8)).status = "verified" ∨
          (teamCreatedPayEntry "AAAAAA" (7, 8)).status = "rejected" ∨
          (teamCreatedPayEntry "AAAAAA" (7, 8)).status = "awaiting_members") ∧
        ((teamCreatedPayEntry "AAAAAA" (7, 8)).status = "awaiting_members" ↔
          (teamCreatedPayEntry "AAAAAA" (7, 8)).ptype = "team_created")) :=
  ⟨by decide,
    C2_payment_status_amended reachable_exTeamSave2
      (PayKey.teamCreated "AAAAAA", teamCreatedPayEntry "AAAAAA" (7, 8)) (by decide)⟩

theorem confirmCheck_members (t : Team) : (confirmCheck t).members = t.members := by
  unfold confirmCheck; split <;> rfl

theorem confirmCheck_confirmed_true {t : Team} (h : t.confirmed = true) :
    (confirmCheck t).confirmed = true := by
  unfold confirmCheck; split <;> simp [h]

theorem verifyTeamScan_alookup {uid : Nat} {txn : String}
    {l l' : List (String × Team)} {c : String} {t' : Team}
    (h : verifyTeamScan uid txn l = some (l', c, t')) (code : String) :
    alookup code l' = alookup code l ∨
      ∃ t0, alookup code l = some t0 ∧
        alookup code l' =
          some (confirmCheck { t0 with members := updFirstMember uid txn t0.members }) := by
  induction l generalizing l' with
  | nil => simp [verifyTeamScan] at h
  | cons ct rest ih =>
    obtain ⟨c₀, t₀⟩ := ct
    by_cases hm : hasMember uid t₀
    · simp [verifyTeamScan, hm] at h
      obtain ⟨h1, _, _⟩ := h
      rw [← h1]
      by_cases hcode : c₀ = code
      · subst hcode
        right
        exact ⟨t₀, by simp [alookup], by simp [alookup]⟩
      · left
        simp [alookup, hcode]
    · simp only [verifyTeamScan, hm, Bool.false_eq_true, if_false] at h
      cases hrec : verifyTeamScan uid txn rest with
      | none => rw [hrec] at h; simp at h
      | some res =>
        obtain ⟨rest', c', tt⟩ := res
        rw [hrec] at h
        simp at h
        obtain ⟨h1, h2, h3⟩ := h
        subst h2; subst h3
        rw [← h1]
        by_cases hcode : c₀ = code
        · subst hcode
          left
          simp [alookup]
        · rcases ih hrec with hh | ⟨t0, ht0, hl'⟩
          · left; simp [alookup, hcode, hh]
          · right; exact ⟨t0, by simp [alookup, hcode, ht0], by simp [alookup, hcode, hl']⟩

theorem reject_cmd_teams (s : Store) (uid : Nat) :
    (reject_cmd s uid).1.teams = s.teams := by
  unfold reject_cmd
  repeat' split
  all_goals rfl

theorem confirmed_mono {s s' : Store} {op : Op} (hs : s' ∈ opSaves s op)
    {code : String} {team : Team} (hlk : alookup code s.teams = some team)
    (hc : team.confirmed = true) :
    ∃ team', alookup code s'.teams = some team' ∧ team'.confirmed = true := by
  cases op with
  | soloReg uid replies g cm =>
    obtain ⟨a1, a2, a3, a4, a5, hcase⟩ := solo_saves_cases s' hs
    rcases hcase with rfl | rfl <;> exact ⟨team, hlk, hc⟩
  | teamCreate uid nr cands g cm =>
    obtain ⟨code', name, hal, hcase⟩ := teamCreate_saves_cases s' hs
    have hfresh := allocate_fresh hal
    have hne : code ≠ code' := by
      intro he
      rw [he, hfresh] at hlk
      exact absurd hlk (by simp)
    rcases hcase with rfl | rfl
    · refine ⟨team, ?_, hc⟩
      show alookup code (aset code' (newTeam uid name) s.teams) = some team
      rw [alookup_aset_ne hne]
      exact hlk
    · refine ⟨team, ?_, hc⟩
      show alookup code
        (aset code' _ (aset code' (newTeam uid name) s.teams)) = some team
      rw [alookup_aset_ne hne, alookup_aset_ne hne]
      exact hlk
  | join rc uid ir pr g cm =>
    obtain ⟨code₀, team₀, ign, proof, hlk₀, hmem, hlen, hcase⟩ := join_saves_cases s' hs
    by_cases he : code = code₀
    · subst he
      rw [hlk₀] at hlk
      injection hlk with he2
      rcases hcase with rfl | rfl
      · refine ⟨_, alookup_aset_self code _ s.teams, ?_⟩
        show team₀.confirmed = true
        rw [he2]; exact hc
      · refine ⟨_, alookup_aset_self code _ (joinSave1 s code team₀ uid ign proof).teams, ?_⟩
        show team₀.confirmed = true
        rw [he2]; exact hc
    · rcases hcase with rfl | rfl
      · refine ⟨team, ?_, hc⟩
        show alookup code (aset code₀ _ s.teams) = some team
        rw [alookup_aset_ne he]
        exact hlk
      · refine ⟨team, ?_, hc⟩
        show alookup code (aset code₀ _ (joinSave1 s code₀ team₀ uid ign proof).teams) = some team
        rw [alookup_aset_ne he]
        show alookup code (aset code₀ _ s.teams) = some team
        rw [alookup_aset_ne he]
        exact hlk
  | verify uid txn =>
    simp only [opSaves, List.mem_singleton] at hs
    subst hs
    unfold verify_cmd
    cases hsl : alookup uid s.solos with
    | some solo =>
      dsimp only []
      cases hpk : alookup (PayKey.solo uid) s.payments <;>
        dsimp only [] <;> exact ⟨team, hlk, hc⟩
    | none =>
      dsimp only []
      cases hscan : verifyTeamScan uid (verifiedTxn txn) s.teams with
      | none => dsimp only []; exact ⟨team, hlk, hc⟩
      | some res =>
        obtain ⟨teams', c, t'⟩ := res
        have halk := verifyTeamScan_alookup hscan code
        dsimp only []
        cases hpk : alookup (PayKey.teamMember c uid) s.payments <;> dsimp only []
        all_goals {
          rcases halk with hh | ⟨t0, ht0, hl'⟩
          · exact ⟨team, by rw [hh]; exact hlk, hc⟩
          · rw [ht0] at hlk
            injection hlk with he2
            subst he2
            exact ⟨_, hl', confirmCheck_confirmed_true hc⟩ }
  | reject uid =>
    simp only [opSaves, List.mem_singleton] at hs
    subst hs
    exact ⟨team, by rw [reject_cmd_teams]; exact hlk, hc⟩

/-- C4: in every reachable store state a team's `confirmed` flag is
true iff the team has exactly 5 members and every member's `paid` flag
is true; moreover, once true, `confirmed` stays true in every snapshot
saved by any further operation (join, verify, reject, or any other). -/
theorem C4_confirmed_iff_full_paid {s : Store} (h : Reachable s) :
    (∀ code team, alookup code s.teams = some team →
      (team.confirmed = true ↔
        team.members.length = 5 ∧ ∀ m ∈ team.members, m.paid = true)) ∧
    ∀ (op : Op) (s' : Store) (code : String) (team : Team),
      s' ∈ opSaves s op → alookup code s.teams = some team →
      team.confirmed = true →
      ∃ team', alookup code s'.teams = some team' ∧ team'.confirmed = true := by
  constructor
  · intro code team hlk
    have ht := (reachable_storeInv h).2.1 _ (alookup_mem hlk)
    unfold teamOK at ht
    rw [ht]
    simp [List.all_eq_true]
  · intro op s' code team hs hlk hc
    exact confirmed_mono hs hlk hc

/-- Witness for C4 at the concrete reachable state `exS11`, whose team
is confirmed with five paid members. -/
theorem C4_witness :
    exS11team.confirmed = true ↔
      (exS11team.members.length = 5 ∧ ∀ m ∈ exS11team.members, m.paid = true) :=
  (C4_confirmed_iff_full_paid reachable_exS11).1 "AAAAAA" exS11team (by rfl)

theorem alphabet_length : ALPHABET.length = 36 := rfl

theorem make_join_code_spec (picks : Fin 6 → Fin 36) :
    (make_join_code picks).length = 6 ∧
      ∀ ch ∈ (make_join_code picks).data, ch ∈ ALPHABET := by
  constructor
  · show (String.mk ((List.ofFn picks).map _)).length = 6
    simp [String.length]
  · intro ch hch
    simp only [make_join_code] at hch
    obtain ⟨i, hi, rfl⟩ := List.mem_map.mp hch
    have hlt : i.val < ALPHABET.length := by rw [alphabet_length]; exact i.isLt
    have hg : ALPHABET.getD i.val 'A' = ALPHABET.get ⟨i.val, hlt⟩ := by
      simp [List.getD, List.getElem?_eq_getElem hlt, List.get_eq_getElem]
    rw [hg]
    exact List.get_mem _ _ _

/-- C8: every generated join code has length 6 over the A-Z0-9
alphabet; a successful allocation never returns a code already present
among the store's team keys; and in every reachable store the team keys
(join codes) are pairwise distinct. -/
theorem C8_join_codes :
    (∀ picks : Fin 6 → Fin 36, (make_join_code picks).length = 6 ∧
      ∀ ch ∈ (make_join_code picks).data, ch ∈ ALPHABET) ∧
    (∀ (cands : List (Fin 6 → Fin 36)) (teams : List (String × Team)) (code : String),
      allocate cands teams = some code →
        alookup code teams = none ∧ code.length = 6 ∧
          ∀ ch ∈ code.data, ch ∈ ALPHABET) ∧
    (∀ s : Store, Reachable s → (s.teams.map Prod.fst).Nodup) := by
  refine ⟨make_join_code_spec, ?_, fun s h => (reachable_storeInv h).2.2⟩
  intro cands teams code hal
  refine ⟨allocate_fresh hal, ?_⟩
  have hmem : code ∈ cands.map make_join_code := List.mem_of_find?_eq_some hal
  obtain ⟨picks, _, rfl⟩ := List.mem_map.mp hmem
  exact make_join_code_spec picks

/-- Witness for C8: a concrete allocation from the empty store. -/
theorem C8_witness :
    alookup "AAAAAA" ([] : List (String × Team)) = none ∧
      ("AAAAAA" : String).length = 6 ∧ ∀ ch ∈ ("AAAAAA" : String).data, ch ∈ ALPHABET :=
  C8_join_codes.2.1 [fun _ => 0] [] "AAAAAA" (by rfl)

/-! ## Claims C5 and C10 -/

theorem alookup_setPayStatus_ne {k' k : PayKey} (h : k' ≠ k) (st : String)
    (ps : List (PayKey × PayEntry)) :
    alookup k' (setPayStatus k st ps) = alookup k' ps := by
  induction ps with
  | nil => rfl
  | cons kp rest ih =>
    obtain ⟨k₀, p₀⟩ := kp
    show alookup k'
        ((if k₀ = k then (k₀, { p₀ with status := st }) else (k₀, p₀)) ::
          setPayStatus k st rest) =
      alookup k' ((k₀, p₀) :: rest)
    by_cases hk : k₀ = k
    · subst hk
      rw [if_pos rfl]
      have hne : k₀ ≠ k' := fun hh => h hh.symm
      show (if k₀ = k' then some _ else alookup k' (setPayStatus k₀ st rest)) =
        (if k₀ = k' then some p₀ else alookup k' rest)
      rw [if_neg hne, if_neg hne]
      exact ih
    · rw [if_neg hk]
      show (if k₀ = k' then some p₀ else alookup k' (setPayStatus k st rest)) =
        (if k₀ = k' then some p₀ else alookup k' rest)
      by_cases hk' : k₀ = k'
      · rw [if_pos hk', if_pos hk']
      · rw [if_neg hk', if_neg hk']
        exact ih

theorem verifyTeamScan_append {uid : Nat} {txn : String}
    {pre : List (String × Team)} (hpre : ∀ ct ∈ pre, hasMember uid ct.2 = false)
    {c : String} {t : Team} (post : List (String × Team))
    (hm : hasMember uid t = true) :
    verifyTeamScan uid txn (pre ++ (c, t) :: post) =
      some (pre ++
        (c, confirmCheck { t with members := updFirstMember uid txn t.members }) :: post,
        c, confirmCheck { t with members := updFirstMember uid txn t.members }) := by
  induction pre with
  | nil => simp [verifyTeamScan, hm]
  | cons ct rest ih =>
    obtain ⟨c₀, t₀⟩ := ct
    have h₀ : hasMember uid t₀ = false := hpre (c₀, t₀) (by simp)
    have hrec := ih (fun x hx => hpre x (List.mem_cons_of_mem _ hx))
    simp only [List.cons_append, verifyTeamScan, h₀, Bool.false_eq_true, if_false,
      List.append_eq, hrec]

theorem rejectTeamScan_append {uid : Nat}
    {pre : List (String × Team)} (hpre : ∀ ct ∈ pre, hasMember uid ct.2 = false)
    {c : String} {t : Team} (post : List (String × Team))
    (hm : hasMember uid t = true) :
    rejectTeamScan uid (pre ++ (c, t) :: post) = some c := by
  induction pre with
  | nil => simp [rejectTeamScan, hm]
  | cons ct rest ih =>
    obtain ⟨c₀, t₀⟩ := ct
    have h₀ : hasMember uid t₀ = false := hpre (c₀, t₀) (by simp)
    simp only [List.cons_append, rejectTeamScan, h₀, Bool.false_eq_true, if_false,
      List.append_eq]
    exact ih (fun x hx => hpre x (List.mem_cons_of_mem _ hx))

theorem jointeam_run_eq {s : Store} {rc : String} {uid : Nat}
    {ir pr : Option Reply} {cm : Nat × Nat} {team : Team} {it pt : String}
    (h : alookup (pyUpper (pyStrip rc)) s.teams = some team)
    (hmem : hasMember uid team = false) (hlen : team.members.length < 5)
    (hig : awaitReply JOIN_IGN_TIMEOUT ir = some it)
    (hcan : pyLower (pyStrip it) ≠ CANCEL)
    (hpay : awaitReply JOIN_PAYMENT_TIMEOUT pr = some pt) :
    jointeam_cmd s (some rc) uid ir pr true cm =
      ([joinSave1 s (pyUpper (pyStrip rc)) team uid (pyStrip it) (pyStrip pt),
        joinSave2 s (pyUpper (pyStrip rc)) team uid (pyStrip it) (pyStrip pt) cm],
        VEvent.postNotice cm.1 cm.2 ::
          (match team.admin_msg with
            | some am => [VEvent.editNotice am.1 am.2]
            | none => []),
        JoinOutcome.joined) := by
  unfold jointeam_cmd
  dsimp only []
  rw [h]
  dsimp only []
  rw [if_neg (by simp [hmem]), if_neg (by omega), hig]
  dsimp only []
  rw [if_neg hcan, hpay]
  dsimp only []
  rw [if_pos rfl]

theorem attachPayMsg_ids (uid : Nat) (cm : Nat × Nat) (pf : String)
    (ms : List TeamMember) :
    (attachPayMsg uid cm pf ms).map (fun m => m.discord_id) =
      ms.map (fun m => m.discord_id) := by
  induction ms with
  | nil => simp [attachPayMsg]
  | cons m rest ih =>
    by_cases h : m.discord_id = uid
    · simp [attachPayMsg, h]
    · simp [attachPayMsg, h, ih]

/-- C5: `jointeam` proceeds to its dialogue questions and appends a
member exactly when the supplied code names an existing team of which
the caller is not yet a member and which has fewer than 5 members; each
failing case returns its matching validation error with no store save
(missing code, invalid code, already a member, team full, in the
source's check order). -/
theorem C5_jointeam_validation (s : Store) (uid : Nat) (ir pr : Option Reply)
    (cm : Nat × Nat) :
    (jointeam_cmd s none uid ir pr true cm = ([], [], .missingCode)) ∧
    (∀ rc, alookup (pyUpper (pyStrip rc)) s.teams = none →
      jointeam_cmd s (some rc) uid ir pr true cm = ([], [], .invalidCode)) ∧
    (∀ rc team, alookup (pyUpper (pyStrip rc)) s.teams = some team →
      hasMember uid team = true →
      jointeam_cmd s (some rc) uid ir pr true cm = ([], [], .alreadyMember)) ∧
    (∀ rc team, alookup (pyUpper (pyStrip rc)) s.teams = some team →
      hasMember uid team = false → 5 ≤ team.members.length →
      jointeam_cmd s (some rc) uid ir pr true cm = ([], [], .teamFull)) ∧
    (∀ rc team it pt, alookup (pyUpper (pyStrip rc)) s.teams = some team →
      hasMember uid team = false → team.members.length < 5 →
      awaitReply JOIN_IGN_TIMEOUT ir = some it →
      pyLower (pyStrip it) ≠ CANCEL →
      awaitReply JOIN_PAYMENT_TIMEOUT pr = some pt →
      (jointeam_cmd s (some rc) uid ir pr true cm).2.2 = .joined ∧
      ∃ team', alookup (pyUpper (pyStrip rc))
            ((jointeam_cmd s (some rc) uid ir pr true cm).1.getLastD s).teams =
              some team' ∧
          team'.members.map (fun m => m.discord_id) =
            team.members.map (fun m => m.discord_id) ++ [uid]) := by
  refine ⟨rfl, ?_, ?_, ?_, ?_⟩
  · intro rc h
    unfold jointeam_cmd
    dsimp only []
    rw [h]
  · intro rc team h hmem
    unfold jointeam_cmd
    dsimp only []
    rw [h]
    dsimp only []
    rw [if_pos hmem]
  · intro rc team h hmem hfull
    unfold jointeam_cmd
    dsimp only []
    rw [h]
    dsimp only []
    rw [if_neg (by simp [hmem]), if_pos hfull]
  · intro rc team it pt h hmem hlen hig hcan hpay
    rw [jointeam_run_eq h hmem hlen hig hcan hpay]
    refine ⟨rfl, ?_⟩
    refine ⟨_, alookup_aset_self (pyUpper (pyStrip rc)) _
      (joinSave1 s (pyUpper (pyStrip rc)) team uid (pyStrip it) (pyStrip pt)).teams, ?_⟩
    show (attachPayMsg uid cm (pyStrip pt)
          (team.members ++ [joinMember uid (pyStrip it) (pyStrip pt)])).map
            (fun m => m.discord_id) =
        team.members.map (fun m => m.discord_id) ++ [uid]
    rw [attachPayMsg_ids]
    simp [joinMember]

/-- Witness for C5: user 2 joins the freshly created team through a
lower-cased code. -/
theorem C5_witness :
    jointeam_cmd exTeamSave2 (some "aaaaaa") 2 (some ("IGN", 1)) (some ("pf", 1))
        true (102, 202) |>.2.2 = JoinOutcome.joined :=
  ((C5_jointeam_validation exTeamSave2 2 (some ("IGN", 1)) (some ("pf", 1))
      (102, 202)).2.2.2.2 "aaaaaa" { newTeam 1 "Foxes" with admin_msg := some (7, 8) }
    "IGN" "pf"
    (by decide) (by rfl) (by decide) (by rfl) (by decide) (by rfl)).1

/-- C10: the duplicate-member check of `jointeam` looks only at the
named team, so an identity already on one team can join another; and
when an identity (not registered solo) belongs to several teams, verify
updates exactly the first team containing it in store iteration order
(the others are returned untouched), while reject leaves all team and
solo records unchanged and touches only the payment-index entry of that
first team. -/
theorem C10_multi_team (s : Store) (uid : Nat) (pre post : List (String × Team))
    (c : String) (t : Team) (txn : Option String)
    (hteams : s.teams = pre ++ (c, t) :: post)
    (hpre : ∀ ct ∈ pre, hasMember uid ct.2 = false)
    (hm : hasMember uid t = true)
    (hsolo : alookup uid s.solos = none) :
    ((verify_cmd s uid txn).1.teams =
      pre ++ (c, confirmCheck
        { t with members := updFirstMember uid (verifiedTxn txn) t.members }) :: post) ∧
    ((reject_cmd s uid).1.teams = s.teams) ∧
    ((reject_cmd s uid).1.solos = s.solos) ∧
    (∀ k, k ≠ PayKey.teamMember c uid →
      alookup k (reject_cmd s uid).1.payments = alookup k s.payments) ∧
    (∀ k, k ≠ PayKey.teamMember c uid →
      alookup k (verify_cmd s uid txn).1.payments = alookup k s.payments) ∧
    (∀ (rc : String) (team2 : Team) (ir pr : Option Reply) (cm : Nat × Nat)
        (it pt : String),
      alookup (pyUpper (pyStrip rc)) s.teams = some team2 →
      hasMember uid team2 = false → team2.members.length < 5 →
      awaitReply JOIN_IGN_TIMEOUT ir = some it →
      pyLower (pyStrip it) ≠ CANCEL →
      awaitReply JOIN_PAYMENT_TIMEOUT pr = some pt →
      (jointeam_cmd s (some rc) uid ir pr true cm).2.2 = JoinOutcome.joined) := by
  have hscan : verifyTeamScan uid (verifiedTxn txn) s.teams =
      some (pre ++ (c, confirmCheck
        { t with members := updFirstMember uid (verifiedTxn txn) t.members }) :: post,
        c, confirmCheck
          { t with members := updFirstMember uid (verifiedTxn txn) t.members }) := by
    rw [hteams]
    exact @verifyTeamScan_append uid (verifiedTxn txn) pre hpre c t post hm
  have hrscan : rejectTeamScan uid s.teams = some c := by
    rw [hteams]
    exact @rejectTeamScan_append uid pre hpre c t post hm
  have hverify : (verify_cmd s uid txn).1.teams =
      pre ++ (c, confirmCheck
        { t with members := updFirstMember uid (verifiedTxn txn) t.members }) :: post ∧
      ∀ k, k ≠ PayKey.teamMember c uid →
        alookup k (verify_cmd s uid txn).1.payments = alookup k s.payments := by
    unfold verify_cmd
    rw [hsolo]
    dsimp only []
    rw [hscan]
    dsimp only []
    cases hpk : alookup (PayKey.teamMember c uid) s.payments with
    | some p =>
      dsimp only []
      exact ⟨rfl, fun k hk => alookup_setPayStatus_ne hk _ _⟩
    | none => exact ⟨rfl, fun k hk => rfl⟩
  have hreject : (reject_cmd s uid).1.teams = s.teams ∧
      (reject_cmd s uid).1.solos = s.solos ∧
      ∀ k, k ≠ PayKey.teamMember c uid →
        alookup k (reject_cmd s uid).1.payments = alookup k s.payments := by
    unfold reject_cmd
    rw [hsolo]
    dsimp only []
    rw [hrscan]
    dsimp only []
    cases hpk : alookup (PayKey.teamMember c uid) s.payments with
    | some p =>
      dsimp only []
      exact ⟨rfl, rfl, fun k hk => alookup_setPayStatus_ne hk _ _⟩
    | none => exact ⟨rfl, rfl, fun k hk => rfl⟩
  refine ⟨hverify.1, hreject.1, hreject.2.1, hreject.2.2, hverify.2, ?_⟩
  intro rc team2 ir pr cm it pt hlk2 hmem2 hlen2 hig hcan hpay
  rw [jointeam_run_eq hlk2 hmem2 hlen2 hig hcan hpay]

/-- Witness for C10 on a store where user 2 belongs to both teams. -/
theorem C10_witness :
    (hasMember 2 exMteamA = true ∧ hasMember 2 exMteamB = true) ∧
      (verify_cmd exM 2 (some "TX")).1.teams =
        [] ++ ("AAAAAA", confirmCheck { exMteamA with
          members := updFirstMember 2 (verifiedTxn (some "TX")) exMteamA.members }) ::
          [("BBBBBB", exMteamB)] :=
  ⟨⟨by decide, by decide⟩,
    (C10_multi_team exM 2 [] [("BBBBBB", exMteamB)] "AAAAAA" exMteamA (some "TX")
      (by rfl) (by simp) (by decide) (by rfl)).1⟩

theorem collectQuestions_cancelled :
    ∀ (tos : List Nat) (replies : List (Option Reply)) (i : Nat),
      i < tos.length → i < replies.length →
      (∀ j < i, answersStep (tos.getD j 0) (replies.getD j none)) →
      cancelsStep (tos.getD i 0) (replies.getD i none) →
      collectQuestions tos replies = .cancelled := by
  intro tos
  induction tos with
  | nil => intro replies i hi; simp at hi
  | cons tmo tos' ih =>
    intro replies i hi hir hbefore hcancel
    cases replies with
    | nil => simp at hir
    | cons r rs =>
      cases i with
      | zero =>
        obtain ⟨txt, hw, hc⟩ := hcancel
        simp only [List.getD_cons_zero] at hw hc
        simp [collectQuestions, hw, hc]
      | succ i' =>
        obtain ⟨txt0, hw0, hc0⟩ := hbefore 0 (Nat.succ_pos _)
        simp only [List.getD_cons_zero] at hw0 hc0
        have hrec := ih rs i' (by simpa using hi) (by simpa using hir)
          (fun j hj => by
            have := hbefore (j + 1) (by omega)
            simpa using this)
          (by
            obtain ⟨txt, hw, hc⟩ := hcancel
            exact ⟨txt, by simpa using hw, hc⟩)
        simp [collectQuestions, hw0, hc0, hrec]

theorem getD_replicate {α : Type _} (x d : α) :
    ∀ (n j : Nat), j < n → (List.replicate n x).getD j d = x
  | _ + 1, 0, _ => rfl
  | n + 1, j + 1, h => getD_replicate x d n j (by omega)

/-- C1 counterexample: at the payment-proof question of the join flow
the reply `cancel` (which normalizes to the cancel keyword) is NOT
treated as a cancellation: the join completes, the store changes, and
the literal text `cancel` is recorded as the member's payment proof. -/
theorem C1_counterexample :
    pyLower (pyStrip "cancel") = CANCEL ∧
      (jointeam_cmd exTeamSave2 (some "AAAAAA") 2 (some ("IGN", 1))
          (some ("cancel", 1)) true (50, 51)).2.2 = JoinOutcome.joined ∧
      ((jointeam_cmd exTeamSave2 (some "AAAAAA") 2 (some ("IGN", 1))
          (some ("cancel", 1)) true (50, 51)).1.getLastD exTeamSave2 ≠ exTeamSave2) ∧
      ((alookup "AAAAAA" ((jointeam_cmd exTeamSave2 (some "AAAAAA") 2 (some ("IGN", 1))
          (some ("cancel", 1)) true (50, 51)).1.getLastD exTeamSave2).teams).map
        (fun t => t.members.map (fun m => (m.discord_id, m.payment_proof)))) =
        some [(1, none), (2, some "cancel")] :=
  ⟨rfl, rfl, by decide, rfl⟩

/-- C1 (amended): a reply normalizing to the cancel keyword aborts the
session with nothing saved and a cancellation acknowledgment at every
question of the solo flow, at the team-name question, and at the
join-flow IGN question — but NOT at the join-flow payment-proof
question, which accepts any reply (including `cancel`) as the payment
proof and completes the join. -/
theorem C1_cancel_amended :
    (∀ (s : Store) (uid : Nat) (replies : List (Option Reply)) (g : Bool)
        (cm : Nat × Nat) (i : Nat), i < 5 → i < replies.length →
      (∀ j < i, answersStep SOLO_QUESTION_TIMEOUT (replies.getD j none)) →
      cancelsStep SOLO_QUESTION_TIMEOUT (replies.getD i none) →
      handle_solo_registration s uid replies g cm = ([], [], .cancelled)) ∧
    (∀ (s : Store) (uid : Nat) (nr : Option Reply) (cands : List (Fin 6 → Fin 36))
        (g : Bool) (cm : Nat × Nat),
      cancelsStep TEAM_NAME_TIMEOUT nr →
      handle_team_registration s uid nr cands g cm = ([], [], .cancelled)) ∧
    (∀ (s : Store) (rc : String) (uid : Nat) (ir pr : Option Reply) (g : Bool)
        (cm : Nat × Nat) (team : Team),
      alookup (pyUpper (pyStrip rc)) s.teams = some team →
      hasMember uid team = false → team.members.length < 5 →
      cancelsStep JOIN_IGN_TIMEOUT ir →
      jointeam_cmd s (some rc) uid ir pr g cm = ([], [], .cancelled)) ∧
    (∀ (s : Store) (rc : String) (uid : Nat) (ir pr : Option Reply)
        (cm : Nat × Nat) (team : Team) (it pt : String),
      alookup (pyUpper (pyStrip rc)) s.teams = some team →
      hasMember uid team = false → team.members.length < 5 →
      awaitReply JOIN_IGN_TIMEOUT ir = some it →
      pyLower (pyStrip it) ≠ CANCEL →
      awaitReply JOIN_PAYMENT_TIMEOUT pr = some pt →
      (jointeam_cmd s (some rc) uid ir pr true cm).2.2 = JoinOutcome.joined) := by
  refine ⟨?_, ?_, ?_, ?_⟩
  · intro s uid replies g cm i hi hir hbefore hcancel
    have hcq : collectQuestions (List.replicate 5 SOLO_QUESTION_TIMEOUT) replies =
        .cancelled := by
      refine collectQuestions_cancelled _ replies i (by simpa using hi) hir ?_ ?_
      · intro j hj
        rw [getD_replicate SOLO_QUESTION_TIMEOUT 0 5 j (by omega)]
        exact hbefore j hj
      · rw [getD_replicate SOLO_QUESTION_TIMEOUT 0 5 i (by omega)]
        exact hcancel
    unfold handle_solo_registration
    rw [hcq]
  · intro s uid nr cands g cm hcancel
    obtain ⟨txt, hw, hc⟩ := hcancel
    unfold handle_team_registration
    rw [hw]
    dsimp only []
    rw [if_pos hc]
  · intro s rc uid ir pr g cm team hlk hmem hlen hcancel
    obtain ⟨txt, hw, hc⟩ := hcancel
    unfold jointeam_cmd
    dsimp only []
    rw [hlk]
    dsimp only []
    rw [if_neg (by simp [hmem]), if_neg (by omega), hw]
    dsimp only []
    rw [if_pos hc]
  · intro s rc uid ir pr cm team it pt hlk hmem hlen hig hcan hpay
    rw [jointeam_run_eq hlk hmem hlen hig hcan hpay]

/-- Witness for C1 (amended): concrete cancellations at a solo
question, the team-name question and the join IGN question. -/
theorem C1_cancel_amended_witness :
    handle_solo_registration initialStore 7 [some ("Alice", 1), some ("CANCEL", 2)]
        true (1, 2) = ([], [], SoloOutcome.cancelled) ∧
      handle_team_registration initialStore 7 (some (" cancel ", 1)) [fun _ => 0]
        true (1, 2) = ([], [], TeamCreateOutcome.cancelled) ∧
      jointeam_cmd exTeamSave2 (some "AAAAAA") 2 (some ("Cancel", 1)) none
        true (1, 2) = ([], [], JoinOutcome.cancelled) :=
  ⟨C1_cancel_amended.1 initialStore 7 _ true (1, 2) 1 (by omega) (by simp)
      (by
        intro j hj
        interval_cases j
        exact ⟨"Alice", rfl, by decide⟩)
      ⟨"CANCEL", rfl, by decide⟩,
    C1_cancel_amended.2.1 initialStore 7 (some (" cancel ", 1)) [fun _ => 0] true (1, 2)
      ⟨" cancel ", rfl, by decide⟩,
    C1_cancel_amended.2.2.1 exTeamSave2 "AAAAAA" 2 (some ("Cancel", 1)) none true (1, 2)
      { newTeam 1 "Foxes" with admin_msg := some (7, 8) } (by decide) (by rfl)
      (by decide) ⟨"Cancel", rfl, by decide⟩⟩

theorem attachPayMsg_append {uid : Nat} {ms : List TeamMember}
    (h : ms.any (fun m => m.discord_id == uid) = false) (cm : Nat × Nat)
    (ign pf : String) :
    attachPayMsg uid cm pf (ms ++ [joinMember uid ign pf]) =
      ms ++ [{ joinMember uid ign pf with payment_msg := some cm }] := by
  induction ms with
  | nil => simp [attachPayMsg, joinMember]
  | cons m rest ih =>
    simp only [List.any_cons, Bool.or_eq_false_iff, beq_eq_false_iff_ne, ne_eq] at h
    simp only [List.cons_append, attachPayMsg, if_neg h.1, List.append_eq]
    rw [ih (by simp [h.2])]

/-- C3 counterexample: the first save of team creation is a reachable
store state in which the created team exists without its notice
reference (`admin_msg` is absent). -/
theorem C3_counterexample :
    Reachable exTeamSave1 ∧
      exTeamSave1 ∈ opSaves initialStore exTeamOp ∧
      alookup "AAAAAA" exTeamSave1.teams = some (newTeam 1 "Foxes") ∧
      (newTeam 1 "Foxes").admin_msg = none :=
  ⟨reachable_exTeamSave1, by rw [exTeam_saves]; simp, rfl, rfl⟩

/-- C3 (amended): the solo flow persists the record, its notice
reference and the pending index entry in its single save; team creation
and member join persist the entity first WITHOUT the notice reference
and attach the reference (together with the index entry) only in a
second, later save — so a read between the two saves observes the
entity without its notice reference.  Each entity holds at most one
reference (a single optional field), and the save that records it
stores exactly the posted notice's location. -/
theorem C3_notice_refs_amended :
    (∀ (s : Store) (uid : Nat) (replies : List (Option Reply)) (cm : Nat × Nat)
        (a1 a2 a3 a4 a5 : String) (rest : List String),
      collectQuestions (List.replicate 5 SOLO_QUESTION_TIMEOUT) replies =
        .answered (a1 :: a2 :: a3 :: a4 :: a5 :: rest) →
      handle_solo_registration s uid replies true cm =
        ([soloSave s uid a1 a2 a3 a4 a5 cm], [VEvent.postNotice cm.1 cm.2], .submitted) ∧
      alookup uid (soloSave s uid a1 a2 a3 a4 a5 cm).solos =
        some { soloRecord uid a1 a2 a3 a4 a5 with payment_msg := some cm } ∧
      alookup (PayKey.solo uid) (soloSave s uid a1 a2 a3 a4 a5 cm).payments =
        some (soloPayEntry uid cm)) ∧
    (∀ (s : Store) (uid : Nat) (nr : Option Reply) (cands : List (Fin 6 → Fin 36))
        (cm : Nat × Nat) (txt code : String),
      awaitReply TEAM_NAME_TIMEOUT nr = some txt →
      pyLower (pyStrip txt) ≠ CANCEL →
      allocate cands s.teams = some code →
      handle_team_registration s uid nr cands true cm =
        ([teamCreateSave1 s code uid (pyStrip txt),
          teamCreateSave2 s code uid (pyStrip txt) cm],
          [VEvent.postNotice cm.1 cm.2], .created code) ∧
      alookup code (teamCreateSave1 s code uid (pyStrip txt)).teams =
        some (newTeam uid (pyStrip txt)) ∧
      (newTeam uid (pyStrip txt)).admin_msg = none ∧
      alookup code (teamCreateSave2 s code uid (pyStrip txt) cm).teams =
        some { newTeam uid (pyStrip txt) with admin_msg := some cm } ∧
      alookup (PayKey.teamCreated code) (teamCreateSave2 s code uid (pyStrip txt) cm).payments =
        some (teamCreatedPayEntry code cm)) ∧
    (∀ (s : Store) (rc : String) (uid : Nat) (ir pr : Option Reply) (cm : Nat × Nat)
        (team : Team) (it pt : String),
      alookup (pyUpper (pyStrip rc)) s.teams = some team →
      hasMember uid team = false → team.members.length < 5 →
      awaitReply JOIN_IGN_TIMEOUT ir = some it →
      pyLower (pyStrip it) ≠ CANCEL →
      awaitReply JOIN_PAYMENT_TIMEOUT pr = some pt →
      (jointeam_cmd s (some rc) uid ir pr true cm).1 =
        [joinSave1 s (pyUpper (pyStrip rc)) team uid (pyStrip it) (pyStrip pt),
          joinSave2 s (pyUpper (pyStrip rc)) team uid (pyStrip it) (pyStrip pt) cm] ∧
      alookup (pyUpper (pyStrip rc))
          (joinSave1 s (pyUpper (pyStrip rc)) team uid (pyStrip it) (pyStrip pt)).teams =
        some { team with members :=
          team.members ++ [joinMember uid (pyStrip it) (pyStrip pt)] } ∧
      (joinMember uid (pyStrip it) (pyStrip pt)).payment_msg = none ∧
      alookup (pyUpper (pyStrip rc))
          (joinSave2 s (pyUpper (pyStrip rc)) team uid (pyStrip it) (pyStrip pt) cm).teams =
        some { team with members :=
          team.members ++ [{ joinMember uid (pyStrip it) (pyStrip pt) with
            payment_msg := some cm }] } ∧
      alookup (PayKey.teamMember (pyUpper (pyStrip rc)) uid)
          (joinSave2 s (pyUpper (pyStrip rc)) team uid (pyStrip it) (pyStrip pt) cm).payments =
        some (teamMemberPayEntry (pyUpper (pyStrip rc)) uid cm)) := by
  refine ⟨?_, ?_, ?_⟩
  · intro s uid replies cm a1 a2 a3 a4 a5 rest hcq
    refine ⟨?_, alookup_aset_self _ _ _, alookup_aset_self _ _ _⟩
    unfold handle_solo_registration
    rw [hcq]
    dsimp only []
    rw [if_pos rfl]
  · intro s uid nr cands cm txt code hw hcan hal
    refine ⟨?_, alookup_aset_self _ _ _, rfl, ?_, alookup_aset_self _ _ _⟩
    · unfold handle_team_registration
      rw [hw]
      dsimp only []
      rw [if_neg hcan, hal]
      dsimp only []
      rw [if_pos rfl]
    · show alookup code
        (aset code _ (teamCreateSave1 s code uid (pyStrip txt)).teams) = some _
      exact alookup_aset_self _ _ _
  · intro s rc uid ir pr cm team it pt hlk hmem hlen hig hcan hpay
    refine ⟨by rw [jointeam_run_eq hlk hmem hlen hig hcan hpay], alookup_aset_self _ _ _,
      rfl, ?_, alookup_aset_self _ _ _⟩
    have hattach := @attachPayMsg_append uid team.members
      (by simpa [hasMember] using hmem) cm (pyStrip it) (pyStrip pt)
    have hteams2 :
        (joinSave2 s (pyUpper (pyStrip rc)) team uid (pyStrip it) (pyStrip pt) cm).teams =
          aset (pyUpper (pyStrip rc))
            { team with members := attachPayMsg uid cm (pyStrip pt) (team.members ++ [joinMember uid (pyStrip it) (pyStrip pt)]) }
            (joinSave1 s (pyUpper (pyStrip rc)) team uid (pyStrip it) (pyStrip pt)).teams :=
      rfl
    rw [hteams2, hattach]
    exact alookup_aset_self _ _ _

/-- Witness for C3 (amended): the concrete team-creation run. -/
theorem C3_notice_refs_amended_witness :
    handle_team_registration initialStore 1 (some ("Foxes", 10)) [fun _ => 0] true (7, 8) =
        ([teamCreateSave1 initialStore "AAAAAA" 1 (pyStrip "Foxes"),
          teamCreateSave2 initialStore "AAAAAA" 1 (pyStrip "Foxes") (7, 8)],
          [VEvent.postNotice 7 8], TeamCreateOutcome.created "AAAAAA") ∧
      alookup "AAAAAA" (teamCreateSave1 initialStore "AAAAAA" 1 (pyStrip "Foxes")).teams =
        some (newTeam 1 (pyStrip "Foxes")) ∧
      (newTeam 1 (pyStrip "Foxes")).admin_msg = none ∧
      alookup "AAAAAA" (teamCreateSave2 initialStore "AAAAAA" 1 (pyStrip "Foxes") (7, 8)).teams =
        some { newTeam 1 (pyStrip "Foxes") with admin_msg := some (7, 8) } ∧
      alookup (PayKey.teamCreated "AAAAAA")
          (teamCreateSave2 initialStore "AAAAAA" 1 (pyStrip "Foxes") (7, 8)).payments =
        some (teamCreatedPayEntry "AAAAAA" (7, 8)) :=
  C3_notice_refs_amended.2.1 initialStore 1 (some ("Foxes", 10)) [fun _ => 0] (7, 8)
    "Foxes" "AAAAAA" rfl (by decide) rfl

theorem collectQuestions_timedOut :
    ∀ (tos : List Nat) (replies : List (Option Reply)) (i : Nat),
      i < tos.length →
      (∀ j < i, answersStep (tos.getD j 0) (replies.getD j none)) →
      awaitReply (tos.getD i 0) (replies.getD i none) = none →
      collectQuestions tos replies = .timedOut := by
  intro tos
  induction tos with
  | nil => intro replies i hi; simp at hi
  | cons tmo tos' ih =>
    intro replies i hi hbefore htime
    cases replies with
    | nil => rfl
    | cons r rs =>
      cases i with
      | zero =>
        simp only [List.getD_cons_zero] at htime
        simp [collectQuestions, htime]
      | succ i' =>
        obtain ⟨txt0, hw0, hc0⟩ := hbefore 0 (Nat.succ_pos _)
        simp only [List.getD_cons_zero] at hw0 hc0
        have hrec := ih rs i' (by simpa using hi)
          (fun j hj => by
            have := hbefore (j + 1) (by omega)
            simpa using this)
          (by simpa using htime)
        simp [collectQuestions, hw0, hc0, hrec]

/-- C6 counterexample: the team-name step times out on a reply arriving
after 400 s even though 400 < 600 — its timeout is 300 s, not the
claimed 10 minutes. -/
theorem C6_counterexample :
    (400 < 600) ∧
      handle_team_registration initialStore 1 (some ("Foxes", 400)) [fun _ => 0]
        true (7, 8) = ([], [], TeamCreateOutcome.timedOut) ∧
      TEAM_NAME_TIMEOUT = 300 ∧ ¬TEAM_NAME_TIMEOUT = 600 :=
  ⟨by decide, rfl, rfl, by decide⟩

/-- C6 (amended): the kind-selection step waits 300 s; the five solo
questions and the join-flow payment-proof question wait 600 s; but the
team-name question and the join-flow IGN question also wait only 300 s.
A reply is delivered iff it arrives strictly within the step's timeout;
on timeout each flow aborts with a try-again notice and saves nothing. -/
theorem C6_timeouts_amended :
    (REGISTER_KIND_TIMEOUT = 300 ∧ SOLO_QUESTION_TIMEOUT = 600 ∧
      TEAM_NAME_TIMEOUT = 300 ∧ JOIN_IGN_TIMEOUT = 300 ∧ JOIN_PAYMENT_TIMEOUT = 600) ∧
    (∀ (tmo d : Nat) (txt : String), awaitReply tmo (some (txt, d)) =
      if d < tmo then some txt else none) ∧
    (∀ (txt : String) (d : Nat), REGISTER_KIND_TIMEOUT ≤ d →
      register_choice (some (txt, d)) = .timedOut) ∧
    (∀ (s : Store) (uid : Nat) (replies : List (Option Reply)) (g : Bool)
        (cm : Nat × Nat) (i : Nat), i < 5 →
      (∀ j < i, answersStep SOLO_QUESTION_TIMEOUT (replies.getD j none)) →
      awaitReply SOLO_QUESTION_TIMEOUT (replies.getD i none) = none →
      handle_solo_registration s uid replies g cm = ([], [], .timedOut)) ∧
    (∀ (s : Store) (uid : Nat) (nr : Option Reply) (cands : List (Fin 6 → Fin 36))
        (g : Bool) (cm : Nat × Nat), awaitReply TEAM_NAME_TIMEOUT nr = none →
      handle_team_registration s uid nr cands g cm = ([], [], .timedOut)) ∧
    (∀ (s : Store) (rc : String) (uid : Nat) (ir pr : Option Reply) (g : Bool)
        (cm : Nat × Nat) (team : Team),
      alookup (pyUpper (pyStrip rc)) s.teams = some team →
      hasMember uid team = false → team.members.length < 5 →
      awaitReply JOIN_IGN_TIMEOUT ir = none →
      jointeam_cmd s (some rc) uid ir pr g cm = ([], [], .timedOut)) ∧
    (∀ (s : Store) (rc : String) (uid : Nat) (ir pr : Option Reply) (g : Bool)
        (cm : Nat × Nat) (team : Team) (it : String),
      alookup (pyUpper (pyStrip rc)) s.teams = some team →
      hasMember uid team = false → team.members.length < 5 →
      awaitReply JOIN_IGN_TIMEOUT ir = some it → pyLower (pyStrip it) ≠ CANCEL →
      awaitReply JOIN_PAYMENT_TIMEOUT pr = none →
      jointeam_cmd s (some rc) uid ir pr g cm = ([], [], .timedOut)) := by
  refine ⟨⟨rfl, rfl, rfl, rfl, rfl⟩, fun tmo d txt => rfl, ?_, ?_, ?_, ?_, ?_⟩
  · intro txt d hd
    simp [register_choice, awaitReply, Nat.not_lt.mpr hd]
  · intro s uid replies g cm i hi hbefore htime
    have hcq : collectQuestions (List.replicate 5 SOLO_QUESTION_TIMEOUT) replies =
        .timedOut := by
      refine collectQuestions_timedOut _ replies i (by simpa using hi) ?_ ?_
      · intro j hj
        rw [getD_replicate SOLO_QUESTION_TIMEOUT 0 5 j (by omega)]
        exact hbefore j hj
      · rw [getD_replicate SOLO_QUESTION_TIMEOUT 0 5 i (by omega)]
        exact htime
    unfold handle_solo_registration
    rw [hcq]
  · intro s uid nr cands g cm hw
    unfold handle_team_registration
    rw [hw]
  · intro s rc uid ir pr g cm team hlk hmem hlen hw
    unfold jointeam_cmd
    dsimp only []
    rw [hlk]
    dsimp only []
    rw [if_neg (by simp [hmem]), if_neg (by omega), hw]
  · intro s rc uid ir pr g cm team it hlk hmem hlen hig hcan hpay
    unfold jointeam_cmd
    dsimp only []
    rw [hlk]
    dsimp only []
    rw [if_neg (by simp [hmem]), if_neg (by omega), hig]
    dsimp only []
    rw [if_neg hcan, hpay]

/-- Witness for C6 (amended) at concrete late replies. -/
theorem C6_timeouts_amended_witness :
    register_choice (some ("solo", 301)) = RegisterChoice.timedOut ∧
      handle_team_registration initialStore 1 (some ("Foxes", 400)) [fun _ => 0]
        true (7, 8) = ([], [], TeamCreateOutcome.timedOut) :=
  ⟨C6_timeouts_amended.2.2.1 "solo" 301 (by decide),
    C6_timeouts_amended.2.2.2.2.1 initialStore 1 (some ("Foxes", 400)) [fun _ => 0]
      true (7, 8) rfl⟩

theorem verify_events_shape (s : Store) (uid : Nat) (txn : Option String) :
    (verify_cmd s uid txn).2.1 = [] ∨
      ∃ ch m, (verify_cmd s uid txn).2.1 = [VEvent.editNotice ch m] := by
  unfold verify_cmd
  repeat' split
  all_goals first
    | exact Or.inl rfl
    | exact Or.inr ⟨_, _, rfl⟩

theorem reject_events_shape (s : Store) (uid : Nat) :
    (reject_cmd s uid).2.1 = [] ∨
      ∃ ch m, (reject_cmd s uid).2.1 = [VEvent.editNotice ch m] := by
  unfold reject_cmd
  repeat' split
  all_goals first
    | exact Or.inl rfl
    | exact Or.inr ⟨_, _, rfl⟩

/-- C9 counterexample: when the stored message is fetched successfully
but the edit itself is denied (`Forbidden`), `edit_payment_embed` posts
a brand-new embed instead of dropping the update. -/
theorem C9_counterexample :
    edit_payment_embed ⟨true, FetchOutcome.found, EditOutcome.forbidden⟩ =
        EditAction.postedNew ∧
      EditAction.postedNew ≠ EditAction.dropped :=
  ⟨rfl, by decide⟩

/-- C9 (amended): an update whose notice is unreachable at lookup time
(missing channel, missing message, or no permission to fetch) is
dropped silently; when fetch succeeds and the edit call is permitted the
notice is edited in place; but when the edit call itself is denied, a
fresh notice is posted as a fallback (duplicating the notice).  The
verification state machine itself never posts a new notice: every
notice event emitted by verify or reject is an edit of the stored
reference. -/
theorem C9_notice_update_amended :
    (∀ w : NoticeWorld, w.channelExists = false → edit_payment_embed w = .dropped) ∧
    (∀ w : NoticeWorld, w.fetch = .notFound → edit_payment_embed w = .dropped) ∧
    (∀ w : NoticeWorld, w.fetch = .forbidden → edit_payment_embed w = .dropped) ∧
    (∀ w : NoticeWorld, w.channelExists = true → w.fetch = .found →
      w.edit = .ok → edit_payment_embed w = .edited) ∧
    (∀ w : NoticeWorld, w.channelExists = true → w.fetch = .found →
      w.edit = .forbidden → edit_payment_embed w = .postedNew) ∧
    (∀ (s : Store) (uid : Nat) (txn : Option String),
      ∀ e ∈ (verify_cmd s uid txn).2.1, ∃ ch m, e = VEvent.editNotice ch m) ∧
    (∀ (s : Store) (uid : Nat),
      ∀ e ∈ (reject_cmd s uid).2.1, ∃ ch m, e = VEvent.editNotice ch m) := by
  refine ⟨?_, ?_, ?_, ?_, ?_, ?_, ?_⟩
  · intro w h
    obtain ⟨ce, f, ed⟩ := w
    subst h
    cases f <;> cases ed <;> rfl
  · intro w h
    obtain ⟨ce, f, ed⟩ := w
    subst h
    cases ce <;> cases ed <;> rfl
  · intro w h
    obtain ⟨ce, f, ed⟩ := w
    subst h
    cases ce <;> cases ed <;> rfl
  · intro w h1 h2 h3
    obtain ⟨ce, f, ed⟩ := w
    subst h1; subst h2; subst h3
    rfl
  · intro w h1 h2 h3
    obtain ⟨ce, f, ed⟩ := w
    subst h1; subst h2; subst h3
    rfl
  · intro s uid txn e he
    rcases verify_events_shape s uid txn with h | ⟨ch, m, h⟩
    · rw [h] at he; simp at he
    · rw [h] at he
      simp at he
      exact ⟨ch, m, he⟩
  · intro s uid e he
    rcases reject_events_shape s uid with h | ⟨ch, m, h⟩
    · rw [h] at he; simp at he
    · rw [h] at he
      simp at he
      exact ⟨ch, m, he⟩

/-- Witness for C9 (amended) at the four concrete worlds. -/
theorem C9_notice_update_amended_witness :
    edit_payment_embed ⟨false, FetchOutcome.found, EditOutcome.ok⟩ = EditAction.dropped ∧
      edit_payment_embed ⟨true, FetchOutcome.notFound, EditOutcome.ok⟩ = EditAction.dropped ∧
      edit_payment_embed ⟨true, FetchOutcome.found, EditOutcome.ok⟩ = EditAction.edited ∧
      edit_payment_embed ⟨true, FetchOutcome.found, EditOutcome.forbidden⟩ =
        EditAction.postedNew :=
  ⟨C9_notice_update_amended.1 ⟨false, FetchOutcome.found, EditOutcome.ok⟩ rfl,
    C9_notice_update_amended.2.1 ⟨true, FetchOutcome.notFound, EditOutcome.ok⟩ rfl,
    C9_notice_update_amended.2.2.2.1 ⟨true, FetchOutcome.found, EditOutcome.ok⟩ rfl rfl rfl,
    C9_notice_update_amended.2.2.2.2.1 ⟨true, FetchOutcome.found, EditOutcome.forbidden⟩
      rfl rfl rfl⟩

/-! ## Claim C7 -/

theorem aset_aset [DecidableEq κ] (k : κ) (v v' : α) (l : List (κ × α)) :
    aset k v' (aset k v l) = aset k v' l := by
  induction l with
  | nil => simp [aset]
  | cons kv rest ih =>
    obtain ⟨k₀, v₀⟩ := kv
    by_cases hk : k₀ = k
    · subst hk; simp [aset]
    · simp [aset, hk, ih]

theorem alookup_setPayStatus_self (k : PayKey) (st : String)
    (ps : List (PayKey × PayEntry)) :
    alookup k (setPayStatus k st ps) =
      (alookup k ps).map (fun p => { p with status := st }) := by
  induction ps with
  | nil => rfl
  | cons kp rest ih =>
    obtain ⟨k₀, p₀⟩ := kp
    show alookup k
        ((if k₀ = k then (k₀, { p₀ with status := st }) else (k₀, p₀)) ::
          setPayStatus k st rest) = _
    by_cases hk : k₀ = k
    · subst hk
      rw [if_pos rfl]
      show (if k₀ = k₀ then some _ else _) = _
      rw [if_pos rfl]
      show _ = (if k₀ = k₀ then some p₀ else alookup k₀ rest).map _
      rw [if_pos rfl]
      rfl
    · rw [if_neg hk]
      show (if k₀ = k then some p₀ else alookup k (setPayStatus k st rest)) = _
      rw [if_neg hk]
      show _ = (if k₀ = k then some p₀ else alookup k rest).map _
      rw [if_neg hk]
      exact ih

theorem setPayStatus_cons (k : PayKey) (st : String) (k₀ : PayKey) (p₀ : PayEntry)
    (rest : List (PayKey × PayEntry)) :
    setPayStatus k st ((k₀, p₀) :: rest) =
      (if k₀ = k then (k₀, { p₀ with status := st }) else (k₀, p₀)) ::
        setPayStatus k st rest := rfl

theorem setPayStatus_setPayStatus (k : PayKey) (st st' : String)
    (ps : List (PayKey × PayEntry)) :
    setPayStatus k st (setPayStatus k st' ps) = setPayStatus k st ps := by
  induction ps with
  | nil => rfl
  | cons kp rest ih =>
    obtain ⟨k₀, p₀⟩ := kp
    rw [setPayStatus_cons, setPayStatus_cons]
    by_cases hk : k₀ = k
    · subst hk
      rw [if_pos rfl, if_pos rfl, setPayStatus_cons, if_pos rfl, ih]
    · rw [if_neg hk, if_neg hk, setPayStatus_cons, if_neg hk, ih]

theorem updFirstMember_twice (uid : Nat) (x1 x2 : String) (ms : List TeamMember) :
    updFirstMember uid x2 (updFirstMember uid x1 ms) = updFirstMember uid x2 ms := by
  induction ms with
  | nil => rfl
  | cons m rest ih =>
    by_cases h : m.discord_id = uid
    · simp [updFirstMember, h]
    · simp [updFirstMember, h, ih]

theorem updFirstMember_all_paid_indep (uid : Nat) (x1 x2 : String)
    (ms : List TeamMember) :
    (updFirstMember uid x1 ms).all (fun m => m.paid) =
      (updFirstMember uid x2 ms).all (fun m => m.paid) := by
  induction ms with
  | nil => rfl
  | cons m rest ih =>
    by_cases h : m.discord_id = uid
    · simp [updFirstMember, h]
    · simp [updFirstMember, h, ih]

theorem updFirstMember_ids (uid : Nat) (x : String) (ms : List TeamMember) :
    (updFirstMember uid x ms).map (fun m => m.discord_id) =
      ms.map (fun m => m.discord_id) := by
  induction ms with
  | nil => rfl
  | cons m rest ih =>
    by_cases h : m.discord_id = uid
    · simp [updFirstMember, h]
    · simp [updFirstMember, h, ih]

theorem any_id_eq_of_ids_eq : ∀ {l1 l2 : List TeamMember},
    l1.map (fun m => m.discord_id) = l2.map (fun m => m.discord_id) → ∀ u : Nat,
      l1.any (fun m => m.discord_id == u) = l2.any (fun m => m.discord_id == u)
  | [], [], _, _ => rfl
  | [], _ :: _, h, _ => by simp at h
  | _ :: _, [], h, _ => by simp at h
  | m1 :: r1, m2 :: r2, h, u => by
    simp only [List.map_cons, List.cons.injEq] at h
    simp only [List.any_cons, h.1, any_id_eq_of_ids_eq h.2 u]

theorem confirmCheck_twice (t : Team) (uid : Nat) (x1 x2 : String) :
    confirmCheck { confirmCheck { t with members := updFirstMember uid x1 t.members } with
        members := updFirstMember uid x2
          (confirmCheck { t with members := updFirstMember uid x1 t.members }).members } =
      confirmCheck { t with members := updFirstMember uid x2 t.members } := by
  rw [confirmCheck_members, updFirstMember_twice]
  have hb : ((updFirstMember uid x1 t.members).length == 5 &&
        (updFirstMember uid x1 t.members).all (fun m => m.paid)) =
      ((updFirstMember uid x2 t.members).length == 5 &&
        (updFirstMember uid x2 t.members).all (fun m => m.paid)) := by
    rw [updFirstMember_length, updFirstMember_length,
      updFirstMember_all_paid_indep uid x1 x2]
  by_cases hb1 : ((updFirstMember uid x1 t.members).length == 5 &&
      (updFirstMember uid x1 t.members).all (fun m => m.paid)) = true
  · have hb2 : ((updFirstMember uid x2 t.members).length == 5 &&
        (updFirstMember uid x2 t.members).all (fun m => m.paid)) = true := hb ▸ hb1
    rw [show confirmCheck { t with members := updFirstMember uid x1 t.members } =
        { t with members := updFirstMember uid x1 t.members, confirmed := true } from by
      unfold confirmCheck
      rw [if_pos hb1]]
    unfold confirmCheck
    dsimp only []
    rw [if_pos hb2, if_pos hb2]
  · have hb2 : ¬((updFirstMember uid x2 t.members).length == 5 &&
        (updFirstMember uid x2 t.members).all (fun m => m.paid)) = true := by
      rw [← hb]; exact hb1
    rw [show confirmCheck { t with members := updFirstMember uid x1 t.members } =
        { t with members := updFirstMember uid x1 t.members } from by
      unfold confirmCheck
      rw [if_neg hb1]]

theorem verifyTeamScan_twice {uid : Nat} {x1 x2 : String} :
    ∀ {l l1 : List (String × Team)} {c : String} {t1 : Team},
      verifyTeamScan uid x1 l = some (l1, c, t1) →
      verifyTeamScan uid x2 l1 = verifyTeamScan uid x2 l := by
  intro l
  induction l with
  | nil => intro l1 c t1 h; simp [verifyTeamScan] at h
  | cons ct rest ih =>
    intro l1 c t1 h
    obtain ⟨c₀, t₀⟩ := ct
    by_cases hm : hasMember uid t₀
    · simp [verifyTeamScan, hm] at h
      obtain ⟨h1, h2, h3⟩ := h
      have hmT1 : hasMember uid
          (confirmCheck { t₀ with members := updFirstMember uid x1 t₀.members }) = true := by
        unfold hasMember
        rw [confirmCheck_members]
        show (updFirstMember uid x1 t₀.members).any (fun m => m.discord_id == uid) = true
        rw [any_id_eq_of_ids_eq (updFirstMember_ids uid x1 t₀.members) uid]
        exact hm
      rw [← h1]
      simp only [verifyTeamScan, hmT1, hm, if_true]
      rw [confirmCheck_twice]
    · simp only [verifyTeamScan, hm, Bool.false_eq_true, if_false] at h
      cases hrec : verifyTeamScan uid x1 rest with
      | none => rw [hrec] at h; simp at h
      | some res =>
        obtain ⟨rest1, c', tt⟩ := res
        rw [hrec] at h
        simp at h
        obtain ⟨h1, h2, h3⟩ := h
        rw [← h1]
        simp only [verifyTeamScan, hm, Bool.false_eq_true, if_false]
        rw [ih hrec]

theorem verify_cmd_solo_eq_some {s : Store} {uid : Nat} {solo : SoloReg}
    {p : PayEntry} (r : Option String) (hsl : alookup uid s.solos = some solo)
    (hpk : alookup (PayKey.solo uid) s.payments = some p) :
    verify_cmd s uid r =
      ({ s with
          solos := aset uid
            { solo with paid := true, payment_txn := some (verifiedTxn r) } s.solos
          payments := setPayStatus (PayKey.solo uid) "verified" s.payments },
        [VEvent.editNotice p.channel_id p.message_id], .soloVerified) := by
  unfold verify_cmd
  rw [hsl]
  dsimp only []
  rw [hpk]

theorem verify_cmd_solo_eq_none {s : Store} {uid : Nat} {solo : SoloReg}
    (r : Option String) (hsl : alookup uid s.solos = some solo)
    (hpk : alookup (PayKey.solo uid) s.payments = none) :
    verify_cmd s uid r =
      ({ s with
          solos := aset uid
            { solo with paid := true, payment_txn := some (verifiedTxn r) } s.solos },
        [], .soloVerified) := by
  unfold verify_cmd
  rw [hsl]
  dsimp only []
  rw [hpk]

theorem verify_cmd_team_eq_some {s : Store} {uid : Nat} {l' : List (String × Team)}
    {c : String} {t' : Team} {p : PayEntry} (r : Option String)
    (hsl : alookup uid s.solos = none)
    (hscan : verifyTeamScan uid (verifiedTxn r) s.teams = some (l', c, t'))
    (hpk : alookup (PayKey.teamMember c uid) s.payments = some p) :
    verify_cmd s uid r =
      ({ s with
          teams := l'
          payments := setPayStatus (PayKey.teamMember c uid) "verified" s.payments },
        [VEvent.editNotice p.channel_id p.message_id], .teamVerified c) := by
  unfold verify_cmd
  rw [hsl]
  dsimp only []
  rw [hscan]
  dsimp only []
  rw [hpk]

theorem verify_cmd_team_eq_none {s : Store} {uid : Nat} {l' : List (String × Team)}
    {c : String} {t' : Team} (r : Option String)
    (hsl : alookup uid s.solos = none)
    (hscan : verifyTeamScan uid (verifiedTxn r) s.teams = some (l', c, t'))
    (hpk : alookup (PayKey.teamMember c uid) s.payments = none) :
    verify_cmd s uid r = ({ s with teams := l' }, [], .teamVerified c) := by
  unfold verify_cmd
  rw [hsl]
  dsimp only []
  rw [hscan]
  dsimp only []
  rw [hpk]

theorem verifyTeamScan_twice' {uid : Nat} {x1 x2 : String} :
    ∀ {l l1 : List (String × Team)} {c : String} {t1 : Team},
      verifyTeamScan uid x1 l = some (l1, c, t1) →
      ∃ l2 t2, verifyTeamScan uid x2 l = some (l2, c, t2) ∧
        verifyTeamScan uid x2 l1 = some (l2, c, t2) := by
  intro l
  induction l with
  | nil => intro l1 c t1 h; simp [verifyTeamScan] at h
  | cons ct rest ih =>
    intro l1 c t1 h
    obtain ⟨c₀, t₀⟩ := ct
    by_cases hm : hasMember uid t₀
    · simp [verifyTeamScan, hm] at h
      obtain ⟨h1, h2, h3⟩ := h
      have hmT1 : hasMember uid
          (confirmCheck { t₀ with members := updFirstMember uid x1 t₀.members }) = true := by
        unfold hasMember
        rw [confirmCheck_members]
        show (updFirstMember uid x1 t₀.members).any (fun m => m.discord_id == uid) = true
        rw [any_id_eq_of_ids_eq (updFirstMember_ids uid x1 t₀.members) uid]
        exact hm
      subst h2
      refine ⟨(c₀, confirmCheck { t₀ with members := updFirstMember uid x2 t₀.members }) :: rest,
        confirmCheck { t₀ with members := updFirstMember uid x2 t₀.members }, ?_, ?_⟩
      · simp [verifyTeamScan, hm]
      · rw [← h1]
        simp only [verifyTeamScan, hmT1, if_true]
        rw [confirmCheck_twice]
    · simp only [verifyTeamScan, hm, Bool.false_eq_true, if_false] at h
      cases hrec : verifyTeamScan uid x1 rest with
      | none => rw [hrec] at h; simp at h
      | some res =>
        obtain ⟨rest1, c', tt⟩ := res
        rw [hrec] at h
        simp at h
        obtain ⟨h1, h2, h3⟩ := h
        subst h2
        obtain ⟨l2, t2, hA, hB⟩ := ih hrec
        refine ⟨(c₀, t₀) :: l2, t2, ?_, ?_⟩
        · simp only [verifyTeamScan, hm, Bool.false_eq_true, if_false, hA]
        · rw [← h1]
          simp only [verifyTeamScan, hm, Bool.false_eq_true, if_false, hB]

theorem updFirstMember_found {uid : Nat} {x : String} :
    ∀ {ms : List TeamMember}, ms.any (fun m => m.discord_id == uid) = true →
      ∃ m ∈ updFirstMember uid x ms, m.discord_id = uid ∧ m.paid = true ∧
        m.payment_txn = some x := by
  intro ms
  induction ms with
  | nil => intro h; simp at h
  | cons m rest ih =>
    intro h
    by_cases hd : m.discord_id = uid
    · exact ⟨{ m with paid := true, payment_txn := some x },
        by simp [updFirstMember, hd], hd, rfl, rfl⟩
    · simp only [List.any_cons, Bool.or_eq_true, beq_iff_eq] at h
      rcases h with h | h
      · exact absurd h hd
      · obtain ⟨m', hm', hprops⟩ := ih h
        exact ⟨m', by simp [updFirstMember, hd, hm'], hprops⟩

theorem verifyTeamScan_found_member {uid : Nat} {x : String} :
    ∀ {l l' : List (String × Team)} {c : String} {t' : Team},
      verifyTeamScan uid x l = some (l', c, t') →
      ∃ m ∈ t'.members, m.discord_id = uid ∧ m.paid = true ∧
        m.payment_txn = some x := by
  intro l
  induction l with
  | nil => intro l' c t' h; simp [verifyTeamScan] at h
  | cons ct rest ih =>
    intro l' c t' h
    obtain ⟨c₀, t₀⟩ := ct
    by_cases hm : hasMember uid t₀
    · simp [verifyTeamScan, hm] at h
      obtain ⟨h1, h2, h3⟩ := h
      subst h3
      rw [confirmCheck_members]
      exact updFirstMember_found (by simpa [hasMember] using hm)
    · simp only [verifyTeamScan, hm, Bool.false_eq_true, if_false] at h
      cases hrec : verifyTeamScan uid x rest with
      | none => rw [hrec] at h; simp at h
      | some res =>
        obtain ⟨rest1, c', tt⟩ := res
        rw [hrec] at h
        simp at h
        obtain ⟨h1, h2, h3⟩ := h
        subst h3
        exact ih hrec

/-- C7: for an identity with a registration record (solo or team
member), verifying twice is idempotent on the store except for the
transaction reference: the second call produces exactly the store a
single verify with the second reference would, the record's `paid` flag
is true and its stored reference is the second call's argument (or the
`verified-by-admin` sentinel), the payment-index status is `verified`,
and both calls only ever edit the existing notice — no notice event of
a verify call is a post. -/
theorem C7_verify_twice_idempotent (s : Store) (uid : Nat) (r1 r2 : Option String)
    (hfound : (verify_cmd s uid r1).2.2 ≠ VerifyOutcome.notFound) :
    (verify_cmd (verify_cmd s uid r1).1 uid r2).1 = (verify_cmd s uid r2).1 ∧
    (∀ solo, alookup uid s.solos = some solo →
      alookup uid (verify_cmd (verify_cmd s uid r1).1 uid r2).1.solos =
        some { solo with paid := true, payment_txn := some (verifiedTxn r2) }) ∧
    (∀ solo p, alookup uid s.solos = some solo →
      alookup (PayKey.solo uid) s.payments = some p →
      alookup (PayKey.solo uid) (verify_cmd (verify_cmd s uid r1).1 uid r2).1.payments =
        some { p with status := "verified" } ∧
      (verify_cmd (verify_cmd s uid r1).1 uid r2).2.1 =
        [VEvent.editNotice p.channel_id p.message_id] ∧
      (verify_cmd s uid r1).2.1 = [VEvent.editNotice p.channel_id p.message_id]) ∧
    (∀ e ∈ (verify_cmd (verify_cmd s uid r1).1 uid r2).2.1,
      ∃ ch m, e = VEvent.editNotice ch m) ∧
    (∀ (l2 : List (String × Team)) (c : String) (t2 : Team),
      alookup uid s.solos = none →
      verifyTeamScan uid (verifiedTxn r2) s.teams = some (l2, c, t2) →
      (verify_cmd (verify_cmd s uid r1).1 uid r2).1.teams = l2 ∧
      ∃ m ∈ t2.members, m.discord_id = uid ∧ m.paid = true ∧
        m.payment_txn = some (verifiedTxn r2)) := by
  have hPart4 : ∀ e ∈ (verify_cmd (verify_cmd s uid r1).1 uid r2).2.1,
      ∃ ch m, e = VEvent.editNotice ch m := by
    intro e he
    rcases verify_events_shape (verify_cmd s uid r1).1 uid r2 with h | ⟨ch, m, h⟩
    · rw [h] at he; simp at he
    · rw [h] at he
      simp at he
      exact ⟨ch, m, he⟩
  cases hsl : alookup uid s.solos with
  | some solo =>
    cases hpk : alookup (PayKey.solo uid) s.payments with
    | some p =>
      have e1 := verify_cmd_solo_eq_some r1 hsl hpk
      have hsl1 : alookup uid (verify_cmd s uid r1).1.solos =
          some { solo with paid := true, payment_txn := some (verifiedTxn r1) } := by
        rw [e1]
        exact alookup_aset_self _ _ _
      have hpk1 : alookup (PayKey.solo uid) (verify_cmd s uid r1).1.payments =
          some { p with status := "verified" } := by
        rw [e1]
        show alookup (PayKey.solo uid)
          (setPayStatus (PayKey.solo uid) "verified" s.payments) = _
        rw [alookup_setPayStatus_self, hpk]
        rfl
      have e2 := verify_cmd_solo_eq_some r2 hsl1 hpk1
      have eDirect := verify_cmd_solo_eq_some r2 hsl hpk
      have hstores : (verify_cmd (verify_cmd s uid r1).1 uid r2).1 =
          (verify_cmd s uid r2).1 := by
        rw [e2, eDirect]
        dsimp only []
        rw [e1]
        dsimp only []
        rw [aset_aset, setPayStatus_setPayStatus]
      refine ⟨hstores, ?_, ?_, hPart4, ?_⟩
      · intro solo' hsolo'
        injection hsolo' with he
        subst he
        rw [hstores, eDirect]
        exact alookup_aset_self _ _ _
      · intro solo' p' hsolo' hp'
        injection hsolo' with he
        subst he
        injection hp' with he2
        subst he2
        refine ⟨?_, ?_, ?_⟩
        · rw [hstores, eDirect]
          show alookup (PayKey.solo uid)
            (setPayStatus (PayKey.solo uid) "verified" s.payments) = _
          rw [alookup_setPayStatus_self, hpk]
          rfl
        · rw [e2]
        · rw [e1]
      · intro l2 c t2 hnone
        exact absurd hnone (by simp)
    | none =>
      have e1 := verify_cmd_solo_eq_none r1 hsl hpk
      have hsl1 : alookup uid (verify_cmd s uid r1).1.solos =
          some { solo with paid := true, payment_txn := some (verifiedTxn r1) } := by
        rw [e1]
        exact alookup_aset_self _ _ _
      have hpk1 : alookup (PayKey.solo uid) (verify_cmd s uid r1).1.payments = none := by
        rw [e1]
        exact hpk
      have e2 := verify_cmd_solo_eq_none r2 hsl1 hpk1
      have eDirect := verify_cmd_solo_eq_none r2 hsl hpk
      have hstores : (verify_cmd (verify_cmd s uid r1).1 uid r2).1 =
          (verify_cmd s uid r2).1 := by
        rw [e2, eDirect]
        dsimp only []
        rw [e1]
        dsimp only []
        rw [aset_aset]
      refine ⟨hstores, ?_, ?_, hPart4, ?_⟩
      · intro solo' hsolo'
        injection hsolo' with he
        subst he
        rw [hstores, eDirect]
        exact alookup_aset_self _ _ _
      · intro solo' p' hsolo' hp'
        exact absurd hp' (by simp)
      · intro l2 c t2 hnone
        exact absurd hnone (by simp)
  | none =>
    cases hscan1 : verifyTeamScan uid (verifiedTxn r1) s.teams with
    | none =>
      exfalso
      apply hfound
      show (verify_cmd s uid r1).2.2 = _
      unfold verify_cmd
      rw [hsl]
      dsimp only []
      rw [hscan1]
    | some res1 =>
      obtain ⟨l1, c, t1⟩ := res1
      obtain ⟨l2', t2', hA, hB⟩ :=
        @verifyTeamScan_twice' uid (verifiedTxn r1) (verifiedTxn r2) s.teams l1 c t1 hscan1
      cases hpk : alookup (PayKey.teamMember c uid) s.payments with
      | some p =>
        have e1 := verify_cmd_team_eq_some r1 hsl hscan1 hpk
        have hsl1 : alookup uid (verify_cmd s uid r1).1.solos = none := by
          rw [e1]
          exact hsl
        have hscan1' : verifyTeamScan uid (verifiedTxn r2) (verify_cmd s uid r1).1.teams =
            some (l2', c, t2') := by
          rw [e1]
          exact hB
        have hpk1 : alookup (PayKey.teamMember c uid) (verify_cmd s uid r1).1.payments =
            some { p with status := "verified" } := by
          rw [e1]
          show alookup (PayKey.teamMember c uid)
            (setPayStatus (PayKey.teamMember c uid) "verified" s.payments) = _
          rw [alookup_setPayStatus_self, hpk]
          rfl
        have e2 := verify_cmd_team_eq_some r2 hsl1 hscan1' hpk1
        have eDirect := verify_cmd_team_eq_some r2 hsl hA hpk
        have hstores : (verify_cmd (verify_cmd s uid r1).1 uid r2).1 =
            (verify_cmd s uid r2).1 := by
          rw [e2, eDirect]
          dsimp only []
          rw [e1]
          dsimp only []
          rw [setPayStatus_setPayStatus]
        refine ⟨hstores, ?_, ?_, hPart4, ?_⟩
        · intro solo' hsolo'
          exact absurd hsolo' (by simp)
        · intro solo' p' hsolo' hp'
          exact absurd hsolo' (by simp)
        · intro l2 c2 t2 hnone hscan2
          rw [hA] at hscan2
          have hinj : l2' = l2 ∧ c = c2 ∧ t2' = t2 := by
            injection hscan2 with he
            exact ⟨congrArg (fun x => x.1) he,
              congrArg (fun x => x.2.1) he, congrArg (fun x => x.2.2) he⟩
          obtain ⟨rfl, rfl, rfl⟩ := hinj
          refine ⟨?_, verifyTeamScan_found_member hA⟩
          rw [hstores, eDirect]
      | none =>
        have e1 := verify_cmd_team_eq_none r1 hsl hscan1 hpk
        have hsl1 : alookup uid (verify_cmd s uid r1).1.solos = none := by
          rw [e1]
          exact hsl
        have hscan1' : verifyTeamScan uid (verifiedTxn r2) (verify_cmd s uid r1).1.teams =
            some (l2', c, t2') := by
          rw [e1]
          exact hB
        have hpk1 : alookup (PayKey.teamMember c uid) (verify_cmd s uid r1).1.payments =
            none := by
          rw [e1]
          exact hpk
        have e2 := verify_cmd_team_eq_none r2 hsl1 hscan1' hpk1
        have eDirect := verify_cmd_team_eq_none r2 hsl hA hpk
        have hstores : (verify_cmd (verify_cmd s uid r1).1 uid r2).1 =
            (verify_cmd s uid r2).1 := by
          rw [e2, eDirect]
          dsimp only []
          rw [e1]
        refine ⟨hstores, ?_, ?_, hPart4, ?_⟩
        · intro solo' hsolo'
          exact absurd hsolo' (by simp)
        · intro solo' p' hsolo' hp'
          exact absurd hsolo' (by simp)
        · intro l2 c2 t2 hnone hscan2
          rw [hA] at hscan2
          have hinj : l2' = l2 ∧ c = c2 ∧ t2' = t2 := by
            injection hscan2 with he
            exact ⟨congrArg (fun x => x.1) he,
              congrArg (fun x => x.2.1) he, congrArg (fun x => x.2.2) he⟩
          obtain ⟨rfl, rfl, rfl⟩ := hinj
          refine ⟨?_, verifyTeamScan_found_member hA⟩
          rw [hstores, eDirect]

/-- Witness for C7: a concrete solo registrant verified twice with two
different transaction references. -/
theorem C7_witness :
    (verify_cmd (verify_cmd exSolo 42 (some "A")).1 42 (some "B")).1 =
        (verify_cmd exSolo 42 (some "B")).1 ∧
      alookup 42 (verify_cmd (verify_cmd exSolo 42 (some "A")).1 42 (some "B")).1.solos =
        some { exSoloRec with paid := true, payment_txn := some (verifiedTxn (some "B")) } :=
  ⟨(C7_verify_twice_idempotent exSolo 42 (some "A") (some "B") (by decide)).1,
    (C7_verify_twice_idempotent exSolo 42 (some "A") (some "B") (by decide)).2.1
      exSoloRec (by rfl)⟩

end FragNation






